import Mathlib

/-!
# quiscript, `demo/llvm_helloworld/main.cpp`: AST nodes and the IR code generator

A shallow embedding of the expression tree (`ExprAstNode` and its six
subclasses) and of `CodeGenerator`, the visitor that turns a tree into IR.

* Raw and owning pointers are `Option`s: `none` is a pointer that refers to no
  live object.
* A `std::any` result is the sum `AnyResult`: one constructor per type the
  visitor ever stores in it. `std::any_cast<T>` succeeds only on the
  constructor of exactly `T`.
* A visit ends in an `Outcome`: a normal return, a thrown `std::bad_any_cast`,
  or undefined behaviour (an access through a pointer or iterator that refers
  to no object).
* The generator state (`CodeGenerator`) is passed explicitly.
-/

namespace Quiscript

/-! ## IR objects -/

/-- A C++ `double`, identified by its IEEE-754 binary64 bit pattern. -/
structure Double where
  bits : Nat
  deriving DecidableEq, Repr

/-- A C++ `float`, identified by its IEEE-754 binary32 bit pattern. -/
structure Float32 where
  bits : Nat
  deriving DecidableEq, Repr

/-- Sign bit of a `float`. -/
def Float32.sign (f : Float32) : Nat := f.bits / 2 ^ 31 % 2

/-- Biased exponent field (8 bits) of a `float`. -/
def Float32.exponent (f : Float32) : Nat := f.bits / 2 ^ 23 % 256

/-- Fraction field (23 bits) of a `float`. -/
def Float32.mantissa (f : Float32) : Nat := f.bits % 2 ^ 23

/-- The implicit conversion `float` to `double` (the member initialiser
`value_(value)` of line 58). It is exact: the sign is kept, the exponent is
rebiased from 127 to 1023, and the 23 fraction bits become the top 23 of the
52 fraction bits. A subnormal `float` is a normal `double`; infinities and
NaNs keep the all-ones exponent, a NaN keeping its payload in the top
fraction bits and coming out quiet (a signalling NaN gets the quiet bit,
bit 51, set). -/
def Float32.toDouble (f : Float32) : Double :=
  let s := f.sign * 2 ^ 63
  if f.exponent = 255 then
    let quiet := if f.mantissa ≠ 0 ∧ f.mantissa / 2 ^ 22 = 0 then 2 ^ 51 else 0
    { bits := s + 2047 * 2 ^ 52 + f.mantissa * 2 ^ 29 + quiet }
  else if f.exponent = 0 then
    if f.mantissa = 0 then { bits := s }
    else
      let k := Nat.log2 f.mantissa
      { bits := s + (k + 874) * 2 ^ 52 + (f.mantissa - 2 ^ k) * 2 ^ (52 - k) }
  else { bits := s + (f.exponent + 896) * 2 ^ 52 + f.mantissa * 2 ^ 29 }

/-- An `llvm::Constant` the generator meets: the `llvm::ConstantFP` of a
literal (`fp`), or the constant the builder's folder computes from an
operation on constants. The folder's arithmetic is not carried out here: a
folded constant is identified by the operation and its constant operands. -/
inductive Constant where
  | fp (v : Double)
  | fadd (l r : Constant)
  | fsub (l r : Constant)
  | fmul (l r : Constant)
  | fcmpULT (l r : Constant)
  | uiToFP (c : Constant)
  deriving DecidableEq, Repr

/-- An `llvm::Value` the generator can hold a pointer to: a constant, a formal
parameter of a function (`&arg`), or the result of an instruction created by
the builder (identified by its creation index). -/
inductive Value where
  | constant (c : Constant)
  | argument (function : String) (index : Nat)
  | inst (id : Nat)
  deriving DecidableEq, Repr

/-- The instruction kinds the generator asks the builder for. -/
inductive Opcode where
  | fadd
  | fsub
  | fmul
  | fcmpULT
  | uiToFP
  | call (callee : String)
  | ret
  deriving DecidableEq, Repr

/-- One IR instruction: creation index, kind, operands in order, and the name
hint handed to the builder (`"addtmp"`, `"calltmp"`, ...). -/
structure Instruction where
  id : Nat
  op : Opcode
  operands : List Value
  name : String
  deriving DecidableEq, Repr

/-- An `llvm::BasicBlock`: a label and its instruction sequence. -/
structure BasicBlock where
  name : String
  insts : List Instruction
  deriving DecidableEq, Repr

/-- An `llvm::Function`: its name, the display names of its formal parameters
(all of type double, as is the return type), and its basic blocks. A function
with no block is a declaration (`empty()` holds). -/
structure Function where
  name : String
  args : List String
  blocks : List BasicBlock
  deriving DecidableEq, Repr

/-- An `llvm::Module`: the functions it owns, in creation order. -/
structure Module where
  functions : List Function
  deriving DecidableEq, Repr

/-! ## AST nodes (lines 49-149) -/

/-- Data members of `PrototypeAstNode`: `name_` and `args_`. -/
structure PrototypeAstNode where
  name_ : String
  args_ : List String
  deriving DecidableEq, Repr

/-- The class hierarchy under `ExprAstNode`, one constructor per concrete
subclass, carrying that subclass's data members. Child pointers
(`std::unique_ptr<ExprAstNode>`) that own a node are the node itself;
`FunctionAstNode::proto_` is kept as a pointer because its constructor does
not initialise it from its parameter. -/
inductive ExprAstNode where
  | number (value_ : Double)
  | variableExpr (name_ : String)
  | binaryExpr (op_ : Char) (lhs_ rhs_ : ExprAstNode)
  | callExpr (callee_ : String) (args_ : List ExprAstNode)
  | prototype (node : PrototypeAstNode)
  | function (proto_ : Option PrototypeAstNode) (body_ : ExprAstNode)

/-- Constructor `explicit NumberAstNode(float value) : value_(value)`
(line 58): the parameter is a `float`, the member a `double`. A `double`
handed to the constructor is converted to `float` before the call. -/
def NumberAstNode.ctor (value : Float32) : ExprAstNode :=
  ExprAstNode.number value.toDouble

/-- The getter `NumberAstNode::value()` (line 62). -/
def ExprAstNode.value : ExprAstNode → Option Double
  | .number value_ => some value_
  | _ => none

/-- Constructor `FunctionAstNode(proto, body)` (lines 136-138):
`proto_(std::move(proto_)), body_(std::move(body))`. The member `proto_` is
move-constructed from itself, so it keeps whatever its storage held before
construction (`uninit`); the parameter `proto` is never read and its
prototype is destroyed with it when the constructor returns. -/
def FunctionAstNode.ctor (uninit : Option PrototypeAstNode)
    (proto : PrototypeAstNode) (body : ExprAstNode) : ExprAstNode :=
  let _ := proto
  ExprAstNode.function uninit body

/-- The getter `FunctionAstNode::proto()` (line 143): `proto_.get()`. -/
def ExprAstNode.proto : ExprAstNode → Option PrototypeAstNode
  | .function proto_ _ => proto_
  | _ => none

/-- The getter `FunctionAstNode::body()` (line 144): `body_.get()`. -/
def ExprAstNode.body : ExprAstNode → Option ExprAstNode
  | .function _ body_ => some body_
  | _ => none

/-- The getter `CallExprAstNode::args()` (lines 106-111). `result` is
default-constructed, hence empty, and `std::transform` writes one element per
stored argument through `result.begin()` without growing `result`. With no
stored argument nothing is written and the empty vector is returned
(`some []`); with at least one the first write is past the end of `result`
(`none`: undefined behaviour). -/
def CallExprAstNode.args (args_ : List ExprAstNode) : Option (List ExprAstNode) :=
  match args_ with
  | [] => some []
  | _ :: _ => none

/-! ## Visitor results -/

/-- The contents of a `std::any` returned by a visit: the static type of the
returned expression together with the pointer.
* `constantFP`: `llvm::ConstantFP*` (`ConstantFP::get`, line 162)
* `value`: `llvm::Value*` (`logErrorV`, a symbol-table entry, `CreateFAdd`, ...)
* `nullptr`: `std::nullptr_t` (`return nullptr;`)
* `callInst`: `llvm::CallInst*` (`CreateCall`, line 216)
* `function`: `llvm::Function*` (lines 232, 248, 265) -/
inductive AnyResult where
  | constantFP (p : Option Double)
  | value (p : Option Value)
  | nullptr
  | callInst (p : Option Value)
  | function (p : Option String)
  deriving DecidableEq, Repr

/-- How a visit ends. -/
inductive Outcome where
  | ret (result : AnyResult)
  | badAnyCast
  | undefined
  deriving DecidableEq, Repr

/-- A result that is a null pointer of whatever static type: the failure
marker callers are expected to test for. -/
def AnyResult.isFailure : AnyResult → Bool
  | .constantFP p => p.isNone
  | .value p => p.isNone
  | .nullptr => true
  | .callInst p => p.isNone
  | .function p => p.isNone

/-- `std::any_cast<llvm::ConstantFP*>`: `none` when the cast throws. -/
def anyCastConstantFP : AnyResult → Option (Option Double)
  | .constantFP p => some p
  | _ => none

/-- `std::any_cast<llvm::Value*>`: `none` when the cast throws. -/
def anyCastValue : AnyResult → Option (Option Value)
  | .value p => some p
  | _ => none

/-- `std::any_cast<llvm::Function*>`: `none` when the cast throws. -/
def anyCastFunction : AnyResult → Option (Option String)
  | .function p => some p
  | _ => none

/-! ## Generator state -/

/-- Data members of `CodeGenerator` (lines 274-277) together with the two
output channels a visit can write to.
* `module_`: the functions owned by `module_`
* `insertPoint`: the block `builder_` is positioned at, as (function name,
  block index); `none` until `SetInsertPoint` is first called
* `nameValues_`: the `std::unordered_map<std::string, llvm::Value*>`, as an
  association list with unique keys; an entry may hold a null pointer
* `emitted`: every instruction `builder_` has created, in creation order
* `log`: the lines written to `std::cerr` -/
structure CodeGenerator where
  module_ : Module
  insertPoint : Option (String × Nat)
  nameValues_ : List (String × Option Value)
  emitted : List Instruction
  log : List String
  deriving DecidableEq, Repr

/-- State after the constructor `CodeGenerator()` (lines 153-155): an empty
module, a builder with no insertion point, an empty symbol table. -/
def CodeGenerator.init : CodeGenerator :=
  { module_ := { functions := [] }, insertPoint := none, nameValues_ := [],
    emitted := [], log := [] }

/-- Free function `logErrorV` (lines 25-28): writes the message to `std::cerr`
and returns a null `llvm::Value*`. -/
def logErrorV (message : String) (st : CodeGenerator) : Option Value × CodeGenerator :=
  (none, { st with log := st.log ++ [message] })

/-! ### Symbol table -/

/-- `std::unordered_map::find`: the pointer stored under `key`, if any. -/
def mapFind (key : String) : List (String × Option Value) → Option (Option Value)
  | [] => none
  | (k, v) :: rest => if k = key then some v else mapFind key rest

/-- `nameValues_[key] = value`: overwrite the entry of `key`, or add one. -/
def mapAssign (key : String) (value : Option Value) :
    List (String × Option Value) → List (String × Option Value)
  | [] => [(key, value)]
  | (k, v) :: rest =>
    if k = key then (k, value) :: rest else (k, v) :: mapAssign key value rest

/-- `nameValues_[key]` read as an rvalue (line 166): `operator[]` returns the
stored pointer, first inserting a value-initialised (null) entry when the key
is absent. -/
def mapIndex (key : String) (m : List (String × Option Value)) :
    Option Value × List (String × Option Value) :=
  match mapFind key m with
  | some v => (v, m)
  | none => (none, m ++ [(key, none)])

/-! ### IR module and builder

`llvm::Module`, `llvm::Function` and `llvm::IRBuilder<>` are not part of the
repository. Their operations are modelled after the collaborator contract of
the specification (section 4.4): an insertion-point-based builder that appends
each instruction it creates, and a module keyed by function name. The builder
is the one the generator declares, `llvm::IRBuilder<>` with its default
constant folder: an operation on constants is folded, not created. -/

/-- Modelled from the spec: `lookupFunction(name) -> FunctionHandle?`
(`Module::getFunction`), the function registered under `name`, if any. -/
def Module.getFunction (m : Module) (name : String) : Option Function :=
  m.functions.find? (fun f => f.name = name)

/-- Modelled from the spec: `declareFunction(name, paramCount)`
(`Function::Create` with `module_` as parent, lines 225-227) followed by the
loop `arg.setName(args[idx++])` over its parameters (lines 228-231):
registers a declaration with no block and one parameter per entry of `args`,
the i-th parameter displaying the i-th name. The generator creates a function
on its own only after the lookup of `name` has failed (line 241); a prototype
visited directly under a name the module already holds adds a second
function, which lookups by that name do not reach. -/
def Module.createFunction (m : Module) (name : String) (args : List String) : Module :=
  { functions := m.functions ++ [{ name := name, args := args, blocks := [] }] }

/-- Rewrites the function registered under `name` (the one `getFunction`
returns) with `f`, leaving every other function as it is. -/
def updateFunction (name : String) (f : Function → Function) :
    List Function → List Function
  | [] => []
  | g :: rest =>
    if g.name = name then f g :: rest else g :: updateFunction name f rest

/-- Modelled from the spec: `createBlock(function)`
(`BasicBlock::Create(context_, label, function)`, line 251): appends an empty
block to the function. -/
def Module.createBlock (m : Module) (name label : String) : Module :=
  { functions := updateFunction name
      (fun g => { g with blocks := g.blocks ++ [{ name := label, insts := [] }] })
      m.functions }

/-- Modelled from the spec: `eraseFunction(function)`
(`Function::eraseFromParent`, line 269): the function registered under `name`
leaves the module. -/
def Module.eraseFunction (m : Module) (name : String) : Module :=
  { functions := m.functions.eraseP (fun f => f.name = name) }

/-- Appends `i` to block number `block` of a function. -/
def Function.insert (block : Nat) (i : Instruction) (g : Function) : Function :=
  { g with
    blocks := List.modify (fun b => { b with insts := b.insts ++ [i] }) block g.blocks }

/-- Modelled from the spec: the builder's `emit...` operations, for an
instruction the builder does create (`CreateCall`, `CreateRet`, and the
operations its folder does not fold): create one instruction, append it at
the insertion point (when the builder has one) and return it as a value. -/
def CodeGenerator.emit (st : CodeGenerator) (op : Opcode) (operands : List Value)
    (name : String) : Value × CodeGenerator :=
  let i : Instruction :=
    { id := st.emitted.length, op := op, operands := operands, name := name }
  let module_ : Module :=
    match st.insertPoint with
    | none => st.module_
    | some (fn, block) =>
      { functions := updateFunction fn (Function.insert block i) st.module_.functions }
  (Value.inst i.id, { st with module_ := module_, emitted := st.emitted ++ [i] })

/-- The folder of `builder_`. `llvm::IRBuilder<>` (line 275) is the builder
with the default folder, `llvm::ConstantFolder`: an arithmetic, compare or
cast operation whose operands are all constants is folded into a constant
(`some`); any other operation is not (`none`). -/
def foldConstants : Opcode → List Value → Option Constant
  | .fadd, [.constant l, .constant r] => some (Constant.fadd l r)
  | .fsub, [.constant l, .constant r] => some (Constant.fsub l r)
  | .fmul, [.constant l, .constant r] => some (Constant.fmul l r)
  | .fcmpULT, [.constant l, .constant r] => some (Constant.fcmpULT l r)
  | .uiToFP, [.constant c] => some (Constant.uiToFP c)
  | _, _ => none

/-- The builder calls `CreateFAdd`, `CreateFSub`, `CreateFMul`,
`CreateFCmpULT` and `CreateUIToFP` of `llvm::IRBuilder<>`: when the folder
folds the operation the folded constant is returned and no instruction is
created; otherwise the instruction is created and appended at the insertion
point. -/
def CodeGenerator.create (st : CodeGenerator) (op : Opcode) (operands : List Value)
    (name : String) : Value × CodeGenerator :=
  match foldConstants op operands with
  | some c => (Value.constant c, st)
  | none => st.emit op operands name

/-! ## The visitor (lines 151-271) -/

/-- Wraps the `llvm::Value*` returned by `logErrorV` into the `std::any` a
visit returns (`return logErrorV(...)`). -/
def returnLogErrorV (message : String) (st : CodeGenerator) : Outcome × CodeGenerator :=
  match logErrorV message st with
  | (p, st1) => (Outcome.ret (AnyResult.value p), st1)

/-- The method `visit(VariableExprAstNode*)` (lines 165-171). -/
def visitVariable (name_ : String) (st : CodeGenerator) : Outcome × CodeGenerator :=
  match mapIndex name_ st.nameValues_ with
  | (none, m) => returnLogErrorV "Unknown variable name." { st with nameValues_ := m }
  | (some value, m) =>
    (Outcome.ret (AnyResult.value (some value)), { st with nameValues_ := m })

/-- The `switch (node->op())` of `visit(BinaryExprAst*)` (lines 179-195), once
both operands are non-null constants. -/
def binarySwitch (op_ : Char) (left right : Double) (st : CodeGenerator) :
    Outcome × CodeGenerator :=
  let l := Value.constant (Constant.fp left)
  let r := Value.constant (Constant.fp right)
  if op_ = '+' then
    match st.create Opcode.fadd [l, r] "addtmp" with
    | (v, st1) => (Outcome.ret (AnyResult.value (some v)), st1)
  else if op_ = '-' then
    match st.create Opcode.fsub [l, r] "subtmp" with
    | (v, st1) => (Outcome.ret (AnyResult.value (some v)), st1)
  else if op_ = '*' then
    match st.create Opcode.fmul [l, r] "multmp" with
    | (v, st1) => (Outcome.ret (AnyResult.value (some v)), st1)
  else if op_ = '<' then
    match st.create Opcode.fcmpULT [l, r] "cmptmp" with
    | (result, st1) =>
      match st1.create Opcode.uiToFP [result] "booltmp" with
      | (v, st2) => (Outcome.ret (AnyResult.value (some v)), st2)
  else returnLogErrorV "invalid binary operator" st

/-- Lines 176-196 of `visit(BinaryExprAst*)`: the null test on the two cast
results, then the switch. -/
def binaryFinish (op_ : Char) (left right : Option Double) (st : CodeGenerator) :
    Outcome × CodeGenerator :=
  match left, right with
  | some l, some r => binarySwitch op_ l r st
  | _, _ => (Outcome.ret AnyResult.nullptr, st)

/-- The method `visit(CallExprAstNode*)` (lines 198-217). `args()` is called
after the callee lookup. When it returns, the vector it returns is empty, so
the check of line 204 compares the callee's parameter count with 0, the loop
of lines 209-214 has no iteration, and `values`, which the loop never appends
to anyway, is empty when the call is created. -/
def visitCall (callee_ : String) (args_ : List ExprAstNode) (st : CodeGenerator) :
    Outcome × CodeGenerator :=
  match st.module_.getFunction callee_ with
  | none => returnLogErrorV "Unknown function referenced" st
  | some calleeF =>
    match CallExprAstNode.args args_ with
    | none => (Outcome.undefined, st)
    | some args =>
      if calleeF.args.length ≠ args.length then
        returnLogErrorV "Incorrect # arguments passed" st
      else
        let values : List Value := []
        match st.emit (Opcode.call calleeF.name) values "calltmp" with
        | (v, st1) => (Outcome.ret (AnyResult.callInst (some v)), st1)

/-- The method `visit(PrototypeAstNode*)` (lines 219-233). -/
def visitPrototype (node : PrototypeAstNode) (st : CodeGenerator) :
    Outcome × CodeGenerator :=
  (Outcome.ret (AnyResult.function (some node.name_)),
    { st with module_ := st.module_.createFunction node.name_ node.args_ })

/-- Lines 240-243 of `visit(FunctionAstNode*)`: the existing function of that
name, else the one the prototype visit creates (that visit always returns).
`none` when the cast throws. -/
def functionLookup (proto : PrototypeAstNode) (st : CodeGenerator) :
    Option (Option String) × CodeGenerator :=
  match st.module_.getFunction proto.name_ with
  | some f => (some (some f.name), st)
  | none =>
    match visitPrototype proto st with
    | (Outcome.ret a, st1) => (anyCastFunction a, st1)
    | (_, st1) => (none, st1)

/-- The loop of lines 256-258: `nameValues_[arg.getName()] = &arg` for each
parameter of the function, in order. -/
def bindArgs (function : String) :
    List String → Nat → List (String × Option Value) → List (String × Option Value)
  | [], _, m => m
  | a :: rest, idx, m =>
    bindArgs function rest (idx + 1) (mapAssign a (some (Value.argument function idx)) m)

/-- Lines 251-258 of `visit(FunctionAstNode*)`: create the entry block, point
the builder at it, clear the symbol table and bind the parameters. -/
def functionEnter (function : Function) (st : CodeGenerator) : CodeGenerator :=
  { st with
    module_ := st.module_.createBlock function.name "entry"
    insertPoint := some (function.name, function.blocks.length)
    nameValues_ := bindArgs function.name function.args 0 [] }

/-- Lines 260-270 of `visit(FunctionAstNode*)`, given how the body visit
ended: cast its result to `llvm::Value*`; on a non-null value emit the return
and hand back the function, on a null one erase the function. The result of
`llvm::verifyFunction` is discarded. -/
def functionFinish (function : String) (body : Outcome × CodeGenerator) :
    Outcome × CodeGenerator :=
  match body with
  | (Outcome.ret a, st) =>
    match anyCastValue a with
    | none => (Outcome.badAnyCast, st)
    | some (some retValue) =>
      match st.emit Opcode.ret [retValue] "" with
      | (_, st1) => (Outcome.ret (AnyResult.function (some function)), st1)
    | some none =>
      (Outcome.ret AnyResult.nullptr,
        { st with module_ := st.module_.eraseFunction function })
  | (o, st) => (o, st)

/-- The visitor `CodeGenerator::visit`: `visit(ExprAstNode*)` (lines 157-159)
dispatches through `accpet` to the overload of the node's class. In the
overload for `FunctionAstNode` (lines 235-271) `proto->name()` is read through
`proto()`, and `function->empty()` through the function pointer, which stands
for the function the module holds under that name. -/
def visit : ExprAstNode → CodeGenerator → Outcome × CodeGenerator
  | .number value_, st => (Outcome.ret (AnyResult.constantFP (some value_)), st)
  | .variableExpr name_, st => visitVariable name_ st
  | .binaryExpr op_ lhs_ rhs_, st =>
    match visit lhs_ st with
    | (Outcome.ret a, st1) =>
      match anyCastConstantFP a with
      | none => (Outcome.badAnyCast, st1)
      | some left =>
        match visit rhs_ st1 with
        | (Outcome.ret b, st2) =>
          match anyCastConstantFP b with
          | none => (Outcome.badAnyCast, st2)
          | some right => binaryFinish op_ left right st2
        | (o, st2) => (o, st2)
    | (o, st1) => (o, st1)
  | .callExpr callee_ args_, st => visitCall callee_ args_ st
  | .prototype node, st => visitPrototype node st
  | .function proto_ body_, st =>
    match proto_ with
    | none => (Outcome.undefined, st)
    | some proto =>
      match functionLookup proto st with
      | (none, st1) => (Outcome.badAnyCast, st1)
      | (some none, st1) => (Outcome.ret AnyResult.nullptr, st1)
      | (some (some function), st1) =>
        match st1.module_.getFunction function with
        | none => (Outcome.undefined, st1)
        | some f =>
          if f.blocks.isEmpty then
            functionFinish function (visit body_ (functionEnter f st1))
          else
            match logErrorV "Function cannot be redefined." st1 with
            | (_, st2) => (Outcome.ret (AnyResult.function none), st2)

/-! ## Sample inputs -/

/-- The prototype `Prototype("id", ["x"])`. -/
def idProto : PrototypeAstNode := { name_ := "id", args_ := ["x"] }

/-- The definition `id(x) = x` as a node whose `proto()` is its prototype. -/
def idDef : ExprAstNode :=
  ExprAstNode.function (some idProto) (ExprAstNode.variableExpr "x")

/-- The literal `1.0` (bit pattern `0x3FF0000000000000`). -/
def one : Double := { bits := 4607182418800017408 }

/-- The expression `1.0 + 1.0`. -/
def onePlusOne : ExprAstNode :=
  ExprAstNode.binaryExpr '+' (ExprAstNode.number one) (ExprAstNode.number one)

/-- A generator whose module declares `f` with no parameter and no body. -/
def declaredF0 : CodeGenerator :=
  (visit (ExprAstNode.prototype { name_ := "f", args_ := [] }) CodeGenerator.init).2

/-- The generator after `id(x) = x` has been generated and `f(a)` declared:
the module declares `f(a)` with no body, and the symbol table binds `x` to the
parameter of `id`. -/
def declaredF1 : CodeGenerator :=
  (visit (ExprAstNode.prototype { name_ := "f", args_ := ["a"] })
    (visit idDef CodeGenerator.init).2).2

/-- The prototype `Prototype("f", [])`. -/
def fProto : PrototypeAstNode := { name_ := "f", args_ := [] }

/-- The definition `f() = a + 1.0`, whose body refers to the unbound `a`. -/
def unboundBodyDef : ExprAstNode :=
  ExprAstNode.function (some fProto)
    (ExprAstNode.binaryExpr '+' (ExprAstNode.variableExpr "a") (ExprAstNode.number one))

/-- The definition `g() = zz`, whose body refers to the unbound `zz`. -/
def gDef : ExprAstNode :=
  ExprAstNode.function (some { name_ := "g", args_ := [] }) (ExprAstNode.variableExpr "zz")

/-- A definition of `f()` whose body is the failing definition `gDef`. -/
def nestedDef : ExprAstNode := ExprAstNode.function (some fProto) gDef

/-- The generator state in which the body of a definition of `f()` is visited
when the generator was fresh: `f` has its empty entry block. -/
def enteredF : CodeGenerator :=
  functionEnter { name := "f", args := [], blocks := [] } declaredF0

/-- A generator whose module declares `id(x)` without a body. -/
def declaredId : CodeGenerator :=
  (visit (ExprAstNode.prototype idProto) CodeGenerator.init).2

/-- The definition `id(x) = zz`, whose body refers to the unbound `zz`. -/
def unboundIdDef : ExprAstNode :=
  ExprAstNode.function (some idProto) (ExprAstNode.variableExpr "zz")

/-- The `double` `4.0` (bit pattern `0x4010000000000000`). -/
def four : Double := { bits := 4616189618054758400 }

/-- The `double` `2.0` (bit pattern `0x4000000000000000`). -/
def two : Double := { bits := 4611686018427387904 }

/-- The expression built by `main` (lines 281-284): `NumberAstNode(4)` and
`NumberAstNode(2)`, the `int` arguments converted to the `float`s `4.0f`
(`0x40800000`) and `2.0f` (`0x40000000`), under a `'+'`. -/
def mainExpr : ExprAstNode :=
  ExprAstNode.binaryExpr '+' (NumberAstNode.ctor { bits := 1082130432 })
    (NumberAstNode.ctor { bits := 1073741824 })

/-- The `double` nearest to `0.1` (bit pattern `0x3FB999999999999A`). -/
def tenth : Double := { bits := 4591870180066957722 }

/-- The `float` nearest to `0.1` (bit pattern `0x3DCCCCCD`). -/
def tenthFloat : Float32 := { bits := 1036831949 }

/-- A generator whose module declares `f(a)` without a body. -/
def declaredFa : CodeGenerator :=
  (visit (ExprAstNode.prototype { name_ := "f", args_ := ["a"] }) CodeGenerator.init).2

/-- The definition `f(x) = x` as a node whose `proto()` is its prototype. -/
def fxDef : ExprAstNode :=
  ExprAstNode.function (some { name_ := "f", args_ := ["x"] }) (ExprAstNode.variableExpr "x")

/-! ## Theorems -/

/-! ### Module lookups and the symbol table -/

theorem getFunction_name {m : Module} {name : String} {f : Function}
    (h : m.getFunction name = some f) : f.name = name := by
  have := List.find?_some h
  simpa using this

theorem getFunction_self {m : Module} {name : String} {f : Function}
    (h : m.getFunction name = some f) : m.getFunction f.name = some f := by
  rw [getFunction_name h]; exact h

theorem getFunction_eq_none {m : Module} {name : String}
    (h : m.getFunction name = none) : ∀ g ∈ m.functions, g.name ≠ name := by
  intro g hg
  unfold Module.getFunction at h
  have := List.find?_eq_none.1 h g hg
  simpa using this

theorem updateFunction_names (name : String) (f : Function → Function)
    (hname : ∀ g, (f g).name = g.name) (l : List Function) :
    (updateFunction name f l).map Function.name = l.map Function.name := by
  induction l with
  | nil => rfl
  | cons g rest ih =>
    unfold updateFunction
    split
    · simp [hname]
    · simp [ih]

theorem updateFunction_append_new {name : String} (F : Function → Function)
    {l : List Function} (h : ∀ g ∈ l, g.name ≠ name) (f : Function) (hf : f.name = name) :
    updateFunction name F (l ++ [f]) = l ++ [F f] := by
  induction l with
  | nil => simp [updateFunction, hf]
  | cons g rest ih =>
    have hg : g.name ≠ name := h g (by simp)
    have hrest : ∀ g ∈ rest, g.name ≠ name := fun g hg => h g (by simp [hg])
    simp [updateFunction, hg, ih hrest]

theorem emit_names (st : CodeGenerator) (op : Opcode) (operands : List Value)
    (name : String) :
    (st.emit op operands name).2.module_.functions.map Function.name
      = st.module_.functions.map Function.name := by
  unfold CodeGenerator.emit
  cases st.insertPoint with
  | none => rfl
  | some ip =>
    obtain ⟨fn, block⟩ := ip
    show List.map Function.name
      (updateFunction fn (Function.insert block _) st.module_.functions) = _
    apply updateFunction_names
    intro g
    rfl

theorem functionEnter_names (f : Function) (st : CodeGenerator) :
    (functionEnter f st).module_.functions.map Function.name
      = st.module_.functions.map Function.name := by
  unfold functionEnter Module.createBlock
  apply updateFunction_names
  intro g
  rfl

theorem length_eraseFunction_add_one {m : Module} {name : String}
    (h : name ∈ m.functions.map Function.name) :
    (m.eraseFunction name).functions.length + 1 = m.functions.length := by
  obtain ⟨f, hf, hname⟩ := List.mem_map.1 h
  unfold Module.eraseFunction
  simp only []
  have hp : (fun g : Function => decide (g.name = name)) f = true := by simp [hname]
  rw [List.length_eraseP_of_mem hf hp]
  have : 0 < m.functions.length := List.length_pos_of_mem hf
  omega

theorem mapFind_mapAssign_self (key : String) (v : Option Value)
    (m : List (String × Option Value)) : mapFind key (mapAssign key v m) = some v := by
  induction m with
  | nil => simp [mapAssign, mapFind]
  | cons e rest ih =>
    obtain ⟨k, w⟩ := e
    by_cases hk : k = key
    · simp [mapAssign, mapFind, hk]
    · simp [mapAssign, mapFind, hk, ih]

theorem mapFind_mapAssign_of_ne {key other : String} (hne : other ≠ key)
    (v : Option Value) (m : List (String × Option Value)) :
    mapFind key (mapAssign other v m) = mapFind key m := by
  induction m with
  | nil => simp [mapAssign, mapFind, hne]
  | cons e rest ih =>
    obtain ⟨k, w⟩ := e
    by_cases hk : k = other
    · subst hk
      simp [mapAssign, mapFind, hne]
    · by_cases hk2 : k = key
      · subst hk2
        simp [mapAssign, mapFind, hk]
      · simp [mapAssign, mapFind, hk, hk2, ih]

theorem mapFind_bindArgs_of_not_mem (function : String) {key : String} :
    ∀ (args : List String) (idx : Nat) (m : List (String × Option Value)),
      key ∉ args → mapFind key (bindArgs function args idx m) = mapFind key m := by
  intro args
  induction args with
  | nil => intro idx m _; rfl
  | cons a rest ih =>
    intro idx m hmem
    have ha : a ≠ key := fun h => hmem (by simp [h])
    have hrest : key ∉ rest := fun h => hmem (by simp [h])
    simp only [bindArgs]
    rw [ih _ _ hrest, mapFind_mapAssign_of_ne ha]

/-- After the binding loop over distinct parameter names, the i-th name is
bound to the i-th parameter of the function. -/
theorem mapFind_bindArgs (function : String) :
    ∀ (args : List String) (idx : Nat) (m : List (String × Option Value)) (i : Nat)
      (hi : i < args.length), args.Nodup →
      mapFind (args.get ⟨i, hi⟩) (bindArgs function args idx m)
        = some (some (Value.argument function (idx + i))) := by
  intro args
  induction args with
  | nil => intro idx m i hi; simp at hi
  | cons a rest ih =>
    intro idx m i hi hnodup
    obtain ⟨hnot, hrest⟩ := List.nodup_cons.1 hnodup
    cases i with
    | zero =>
      simp only [bindArgs, List.get, Nat.add_zero]
      rw [mapFind_bindArgs_of_not_mem function rest _ _ hnot, mapFind_mapAssign_self]
    | succ j =>
      simp only [bindArgs, List.get]
      rw [ih (idx + 1) _ j (by simpa using hi) hrest]
      congr 3
      omega

/-! ### Shape of the result of each visit -/

/-- Whenever `args()` returns, the vector it returns is empty. -/
theorem args_eq_some {args_ args : List ExprAstNode}
    (h : CallExprAstNode.args args_ = some args) : args_ = [] ∧ args = [] := by
  cases args_ with
  | nil => simp [CallExprAstNode.args] at h; exact ⟨rfl, h⟩
  | cons a rest => simp [CallExprAstNode.args] at h

theorem visitVariable_fst (name_ : String) (st : CodeGenerator) :
    ∃ p, (visitVariable name_ st).1 = Outcome.ret (AnyResult.value p) := by
  unfold visitVariable
  split
  · exact ⟨none, rfl⟩
  · exact ⟨_, rfl⟩

/-- The switch on the operator, with the folder's work spelled out: both
operands are constants, so each supported operation is folded (for `<` the
compare and then the conversion) and the generator is left as it was. -/
theorem binarySwitch_eq (op_ : Char) (left right : Double) (st : CodeGenerator) :
    binarySwitch op_ left right st
      = if op_ = '+' then
          (Outcome.ret (AnyResult.value (some (Value.constant
            (Constant.fadd (Constant.fp left) (Constant.fp right))))), st)
        else if op_ = '-' then
          (Outcome.ret (AnyResult.value (some (Value.constant
            (Constant.fsub (Constant.fp left) (Constant.fp right))))), st)
        else if op_ = '*' then
          (Outcome.ret (AnyResult.value (some (Value.constant
            (Constant.fmul (Constant.fp left) (Constant.fp right))))), st)
        else if op_ = '<' then
          (Outcome.ret (AnyResult.value (some (Value.constant
            (Constant.uiToFP
              (Constant.fcmpULT (Constant.fp left) (Constant.fp right)))))), st)
        else returnLogErrorV "invalid binary operator" st := rfl

theorem binarySwitch_names (op_ : Char) (left right : Double) (st : CodeGenerator) :
    (binarySwitch op_ left right st).2.module_.functions.map Function.name
      = st.module_.functions.map Function.name := by
  rw [binarySwitch_eq]
  split_ifs <;> rfl

theorem binaryFinish_names (op_ : Char) (left right : Option Double) (st : CodeGenerator) :
    (binaryFinish op_ left right st).2.module_.functions.map Function.name
      = st.module_.functions.map Function.name := by
  unfold binaryFinish
  split
  · exact binarySwitch_names _ _ _ _
  · rfl

theorem binaryFinish_fst (op_ : Char) (left right : Option Double) (st : CodeGenerator) :
    (binaryFinish op_ left right st).1 = Outcome.ret AnyResult.nullptr ∨
    ∃ p, (binaryFinish op_ left right st).1 = Outcome.ret (AnyResult.value p) := by
  unfold binaryFinish
  split
  · right
    rw [binarySwitch_eq]
    split_ifs <;> exact ⟨_, rfl⟩
  · left; rfl

theorem visitCall_fst (callee_ : String) (args_ : List ExprAstNode) (st : CodeGenerator) :
    (visitCall callee_ args_ st).1 = Outcome.undefined ∨
    (∃ p, (visitCall callee_ args_ st).1 = Outcome.ret (AnyResult.callInst p)) ∨
    ((visitCall callee_ args_ st).1 = Outcome.ret (AnyResult.value none) ∧
      (visitCall callee_ args_ st).2.module_ = st.module_) := by
  unfold visitCall
  split
  · right; right; exact ⟨rfl, rfl⟩
  · split
    · left; rfl
    · split
      · right; right; exact ⟨rfl, rfl⟩
      · right; left; exact ⟨_, rfl⟩

theorem functionFinish_fst (function : String) (body : Outcome × CodeGenerator) :
    (functionFinish function body).1 = Outcome.badAnyCast ∨
    (functionFinish function body).1 = Outcome.undefined ∨
    (functionFinish function body).1 = Outcome.ret AnyResult.nullptr ∨
    ∃ p, (functionFinish function body).1 = Outcome.ret (AnyResult.function p) := by
  unfold functionFinish
  split
  · split
    · left; rfl
    · right; right; right; exact ⟨_, rfl⟩
    · right; right; left; rfl
  · rename_i o st hne
    cases o with
    | ret a => exact absurd rfl (hne a)
    | badAnyCast => left; rfl
    | undefined => right; left; rfl

theorem visit_binary_fst (op_ : Char) (lhs_ rhs_ : ExprAstNode) (st : CodeGenerator) :
    (visit (ExprAstNode.binaryExpr op_ lhs_ rhs_) st).1 = Outcome.badAnyCast ∨
    (visit (ExprAstNode.binaryExpr op_ lhs_ rhs_) st).1 = Outcome.undefined ∨
    (visit (ExprAstNode.binaryExpr op_ lhs_ rhs_) st).1 = Outcome.ret AnyResult.nullptr ∨
    ∃ p, (visit (ExprAstNode.binaryExpr op_ lhs_ rhs_) st).1
      = Outcome.ret (AnyResult.value p) := by
  simp only [visit]
  generalize visit lhs_ st = r1
  obtain ⟨o1, st1⟩ := r1
  cases o1 with
  | badAnyCast => left; rfl
  | undefined => right; left; rfl
  | ret a =>
    simp only []
    cases anyCastConstantFP a with
    | none => left; rfl
    | some left =>
      simp only []
      generalize visit rhs_ st1 = r2
      obtain ⟨o2, st2⟩ := r2
      cases o2 with
      | badAnyCast => left; rfl
      | undefined => right; left; rfl
      | ret b =>
        simp only []
        cases anyCastConstantFP b with
        | none => left; rfl
        | some right =>
          simp only []
          rcases binaryFinish_fst op_ left right st2 with h | h
          · right; right; left; exact h
          · right; right; right; exact h

theorem visit_function_fst (proto_ : Option PrototypeAstNode) (body_ : ExprAstNode)
    (st : CodeGenerator) :
    (visit (ExprAstNode.function proto_ body_) st).1 = Outcome.badAnyCast ∨
    (visit (ExprAstNode.function proto_ body_) st).1 = Outcome.undefined ∨
    (visit (ExprAstNode.function proto_ body_) st).1 = Outcome.ret AnyResult.nullptr ∨
    ∃ p, (visit (ExprAstNode.function proto_ body_) st).1
      = Outcome.ret (AnyResult.function p) := by
  simp only [visit]
  cases proto_ with
  | none => right; left; rfl
  | some proto =>
    simp only []
    generalize functionLookup proto st = r
    obtain ⟨c, st1⟩ := r
    cases c with
    | none => left; rfl
    | some fp =>
      cases fp with
      | none => right; right; left; rfl
      | some function =>
        simp only []
        cases st1.module_.getFunction function with
        | none => right; left; rfl
        | some f =>
          simp only []
          cases f.blocks.isEmpty with
          | true => exact functionFinish_fst _ _
          | false => right; right; right; exact ⟨_, rfl⟩

/-- Only a number literal yields an `llvm::ConstantFP*`, and its visit leaves
the generator as it was. -/
theorem visit_constantFP_state {e : ExprAstNode} {st : CodeGenerator} {a : AnyResult}
    {x : Option Double} (h : (visit e st).1 = Outcome.ret a)
    (hcast : anyCastConstantFP a = some x) : (visit e st).2 = st := by
  cases e with
  | number v => rfl
  | variableExpr name_ =>
    obtain ⟨p, hp⟩ := visitVariable_fst name_ st
    simp only [visit] at h
    rw [hp] at h
    cases h
    simp [anyCastConstantFP] at hcast
  | binaryExpr op_ lhs_ rhs_ =>
    rcases visit_binary_fst op_ lhs_ rhs_ st with h1 | h1 | h1 | ⟨p, h1⟩ <;>
      rw [h1] at h <;> cases h <;> simp [anyCastConstantFP] at hcast
  | callExpr callee_ args_ =>
    simp only [visit] at h
    rcases visitCall_fst callee_ args_ st with h1 | ⟨p, h1⟩ | ⟨h1, _⟩ <;>
      rw [h1] at h <;> cases h <;> simp [anyCastConstantFP] at hcast
  | prototype node =>
    simp only [visit, visitPrototype] at h
    cases h
    simp [anyCastConstantFP] at hcast
  | function proto_ body_ =>
    rcases visit_function_fst proto_ body_ st with h1 | h1 | h1 | ⟨p, h1⟩ <;>
      rw [h1] at h <;> cases h <;> simp [anyCastConstantFP] at hcast

/-- A binary expression returns normally only when both operand visits
return an `llvm::ConstantFP*`; they leave the generator untouched, and the
result is that of the null test and switch on the two constants. -/
theorem visit_binary_ret {op_ : Char} {lhs_ rhs_ : ExprAstNode} {st : CodeGenerator}
    {a : AnyResult}
    (h : (visit (ExprAstNode.binaryExpr op_ lhs_ rhs_) st).1 = Outcome.ret a) :
    ∃ x y, visit (ExprAstNode.binaryExpr op_ lhs_ rhs_) st = binaryFinish op_ x y st := by
  simp only [visit] at h ⊢
  cases h1 : visit lhs_ st with
  | mk o1 st1 =>
    rw [h1] at h
    cases o1 with
    | badAnyCast => simp at h
    | undefined => simp at h
    | ret a1 =>
      simp only [] at h ⊢
      cases hx : anyCastConstantFP a1 with
      | none => rw [hx] at h; simp at h
      | some x =>
        have e1 : (visit lhs_ st).2 = st := visit_constantFP_state (by rw [h1]) hx
        rw [h1] at e1
        simp only [] at e1
        subst e1
        rw [hx] at h
        simp only [] at h ⊢
        cases h2 : visit rhs_ st1 with
        | mk o2 st2 =>
          rw [h2] at h
          cases o2 with
          | badAnyCast => simp at h
          | undefined => simp at h
          | ret a2 =>
            simp only [] at h ⊢
            cases hy : anyCastConstantFP a2 with
            | none => rw [hy] at h; simp at h
            | some y =>
              have e2 : (visit rhs_ st1).2 = st1 := visit_constantFP_state (by rw [h2]) hy
              rw [h2] at e2
              simp only [] at e2
              subst e2
              exact ⟨x, y, rfl⟩

/-- A visit that returns an `llvm::Value*` has neither added nor removed a
function of the module. -/
theorem visit_value_names {e : ExprAstNode} {st : CodeGenerator} {p : Option Value}
    (h : (visit e st).1 = Outcome.ret (AnyResult.value p)) :
    (visit e st).2.module_.functions.map Function.name
      = st.module_.functions.map Function.name := by
  cases e with
  | number v => simp [visit] at h
  | variableExpr name_ =>
    simp only [visit, visitVariable]
    split <;> rfl
  | binaryExpr op_ lhs_ rhs_ =>
    obtain ⟨x, y, hxy⟩ := visit_binary_ret h
    rw [hxy]
    exact binaryFinish_names _ _ _ _
  | callExpr callee_ args_ =>
    simp only [visit] at h ⊢
    rcases visitCall_fst callee_ args_ st with h1 | ⟨q, h1⟩ | ⟨_, h1⟩
    · rw [h1] at h; cases h
    · rw [h1] at h; cases h
    · rw [h1]
  | prototype node => simp [visit, visitPrototype] at h
  | function proto_ body_ =>
    rcases visit_function_fst proto_ body_ st with h1 | h1 | h1 | ⟨q, h1⟩ <;>
      rw [h1] at h <;> cases h

/-- When `functionFinish` returns a failure, the body visit had returned a
null `llvm::Value*` and the function has been erased from the module the body
left behind. -/
theorem functionFinish_failure {function : String} {body : Outcome × CodeGenerator}
    {a : AnyResult} {st' : CodeGenerator}
    (h : functionFinish function body = (Outcome.ret a, st')) (hfail : a.isFailure = true) :
    body.1 = Outcome.ret (AnyResult.value none) ∧
    st'.module_ = body.2.module_.eraseFunction function := by
  obtain ⟨o, st5⟩ := body
  cases o with
  | badAnyCast => simp [functionFinish] at h
  | undefined => simp [functionFinish] at h
  | ret b =>
    cases b with
    | value p =>
      cases p with
      | none =>
        simp only [functionFinish, anyCastValue, Prod.mk.injEq] at h
        obtain ⟨_, h2⟩ := h
        subst h2
        exact ⟨rfl, rfl⟩
      | some v =>
        simp only [functionFinish, anyCastValue, Prod.mk.injEq, Outcome.ret.injEq] at h
        obtain ⟨h1, _⟩ := h
        subst h1
        simp [AnyResult.isFailure] at hfail
    | constantFP p => simp [functionFinish, anyCastValue] at h
    | nullptr => simp [functionFinish, anyCastValue] at h
    | callInst p => simp [functionFinish, anyCastValue] at h
    | function p => simp [functionFinish, anyCastValue] at h

/-- The module a failed body visit leaves behind, once the function has been
erased, has one function less than the module the body was entered with. -/
theorem failed_body_length {f : Function} {st1 st' : CodeGenerator} {body_ : ExprAstNode}
    {a : AnyResult}
    (hmem : f.name ∈ st1.module_.functions.map Function.name)
    (h : functionFinish f.name (visit body_ (functionEnter f st1)) = (Outcome.ret a, st'))
    (hfail : a.isFailure = true) :
    st'.module_.functions.length + 1 = st1.module_.functions.length := by
  obtain ⟨hb, hm⟩ := functionFinish_failure h hfail
  have hnames := (visit_value_names hb).trans (functionEnter_names f st1)
  rw [hm, length_eraseFunction_add_one (by rw [hnames]; exact hmem)]
  have := congrArg List.length hnames
  simpa using this

/-- A call without arguments is checked against the callee's parameter count
and, when the callee has none, emitted as one call instruction with an empty
argument list. -/
theorem visit_call_no_args (st : CodeGenerator) (callee_ : String) (calleeF : Function)
    (h : st.module_.getFunction callee_ = some calleeF) :
    visit (ExprAstNode.callExpr callee_ []) st
      = if calleeF.args.length ≠ 0 then
          (Outcome.ret (AnyResult.value none),
            { st with log := st.log ++ ["Incorrect # arguments passed"] })
        else
          (Outcome.ret (AnyResult.callInst (some (Value.inst st.emitted.length))),
            (st.emit (Opcode.call calleeF.name) [] "calltmp").2) := by
  simp only [visit, visitCall, h, CallExprAstNode.args, List.length_nil]
  split <;> rfl

/-- The visit itself builds `f(p1..pn) = pi` as intended when the node's
`proto()` is its prototype: the name is new to the module, the parameter names
are distinct, and the module gains a function `f` with those parameters and a
single entry block that returns its i-th parameter. -/
theorem visit_function_parameter_body (st : CodeGenerator) (f : String)
    (ps : List String) (i : Nat) (hi : i < ps.length) (hnodup : ps.Nodup)
    (hf : st.module_.getFunction f = none) :
    visit (ExprAstNode.function (some { name_ := f, args_ := ps })
        (ExprAstNode.variableExpr (ps.get ⟨i, hi⟩))) st
      = (Outcome.ret (AnyResult.function (some f)),
          { module_ := { functions := st.module_.functions ++
              [{ name := f, args := ps,
                 blocks := [{ name := "entry",
                              insts := [{ id := st.emitted.length, op := Opcode.ret,
                                          operands := [Value.argument f i],
                                          name := "" }] }] }] },
            insertPoint := some (f, 0),
            nameValues_ := bindArgs f ps 0 [],
            emitted := st.emitted ++
              [{ id := st.emitted.length, op := Opcode.ret,
                 operands := [Value.argument f i], name := "" }],
            log := st.log }) := by
  have hall := getFunction_eq_none hf
  have hnew : (st.module_.createFunction f ps).getFunction f
      = some { name := f, args := ps, blocks := [] } := by
    unfold Module.getFunction at hf
    simp [Module.getFunction, Module.createFunction, List.find?_append, hf]
  have hfind := mapFind_bindArgs f ps 0 [] i hi hnodup
  simp only [Nat.zero_add] at hfind
  simp only [visit, functionLookup, hf, visitPrototype, anyCastFunction, hnew,
    List.isEmpty_nil, if_true, functionEnter, visitVariable, mapIndex, hfind,
    functionFinish, anyCastValue, CodeGenerator.emit, Module.createBlock, List.length_nil]
  simp only [Module.createFunction]
  rw [updateFunction_append_new _ hall _ rfl, updateFunction_append_new _ hall _ rfl]
  rfl

/-! ### Literals and binary expressions -/

/-- A binary expression over two number literals goes straight to the switch
on its operator, with the two constants as operands and the generator as it
was. -/
theorem visit_binary_numbers (op_ : Char) (x y : Double) (st : CodeGenerator) :
    visit (ExprAstNode.binaryExpr op_ (ExprAstNode.number x) (ExprAstNode.number y)) st
      = binarySwitch op_ x y st := rfl

/-- The switch on the operator always returns an `llvm::Value*`. -/
theorem binarySwitch_fst (op_ : Char) (x y : Double) (st : CodeGenerator) :
    ∃ p, (binarySwitch op_ x y st).1 = Outcome.ret (AnyResult.value p) := by
  rw [binarySwitch_eq]
  split_ifs <;> exact ⟨_, rfl⟩

/-- Only a number literal yields an `llvm::ConstantFP*`, and the pointer is
never null. -/
theorem visit_constantFP_number {e : ExprAstNode} {st : CodeGenerator} {a : AnyResult}
    {p : Option Double} (h : (visit e st).1 = Outcome.ret a)
    (hcast : anyCastConstantFP a = some p) : ∃ v, e = ExprAstNode.number v ∧ p = some v := by
  cases e with
  | number v =>
    simp only [visit] at h
    cases h
    simp only [anyCastConstantFP, Option.some.injEq] at hcast
    exact ⟨v, rfl, hcast.symm⟩
  | variableExpr name_ =>
    obtain ⟨q, hq⟩ := visitVariable_fst name_ st
    simp only [visit] at h
    rw [hq] at h
    cases h
    simp [anyCastConstantFP] at hcast
  | binaryExpr op_ lhs_ rhs_ =>
    rcases visit_binary_fst op_ lhs_ rhs_ st with h1 | h1 | h1 | ⟨q, h1⟩ <;>
      rw [h1] at h <;> cases h <;> simp [anyCastConstantFP] at hcast
  | callExpr callee_ args_ =>
    simp only [visit] at h
    rcases visitCall_fst callee_ args_ st with h1 | ⟨q, h1⟩ | ⟨h1, _⟩ <;>
      rw [h1] at h <;> cases h <;> simp [anyCastConstantFP] at hcast
  | prototype node =>
    simp only [visit, visitPrototype] at h
    cases h
    simp [anyCastConstantFP] at hcast
  | function proto_ body_ =>
    rcases visit_function_fst proto_ body_ st with h1 | h1 | h1 | ⟨q, h1⟩ <;>
      rw [h1] at h <;> cases h <;> simp [anyCastConstantFP] at hcast

/-- A binary expression returns normally only over two number literals. -/
theorem visit_binary_ret_numbers {op_ : Char} {lhs_ rhs_ : ExprAstNode}
    {st : CodeGenerator} {a : AnyResult}
    (h : (visit (ExprAstNode.binaryExpr op_ lhs_ rhs_) st).1 = Outcome.ret a) :
    ∃ x y, lhs_ = ExprAstNode.number x ∧ rhs_ = ExprAstNode.number y := by
  simp only [visit] at h
  cases h1 : visit lhs_ st with
  | mk o1 st1 =>
    rw [h1] at h
    cases o1 with
    | badAnyCast => simp at h
    | undefined => simp at h
    | ret a1 =>
      simp only [] at h
      cases hx : anyCastConstantFP a1 with
      | none => rw [hx] at h; simp at h
      | some x =>
        obtain ⟨v, hv, _⟩ := visit_constantFP_number (by rw [h1]) hx
        rw [hx] at h
        simp only [] at h
        cases h2 : visit rhs_ st1 with
        | mk o2 st2 =>
          rw [h2] at h
          cases o2 with
          | badAnyCast => simp at h
          | undefined => simp at h
          | ret a2 =>
            simp only [] at h
            cases hy : anyCastConstantFP a2 with
            | none => rw [hy] at h; simp at h
            | some y =>
              obtain ⟨w, hw, _⟩ := visit_constantFP_number (by rw [h2]) hy
              exact ⟨v, w, hv, hw⟩

/-- The widening of a `float` has its low 29 fraction bits clear. -/
theorem toDouble_low_bits (f : Float32) : f.toDouble.bits % 2 ^ 29 = 0 := by
  have h63 : (2 : Nat) ^ 29 ∣ f.sign * 2 ^ 63 :=
    Dvd.dvd.mul_left (Nat.pow_dvd_pow 2 (by decide)) _
  have h52 : ∀ e : Nat, (2 : Nat) ^ 29 ∣ e * 2 ^ 52 :=
    fun e => Dvd.dvd.mul_left (Nat.pow_dvd_pow 2 (by decide)) _
  have h29 : (2 : Nat) ^ 29 ∣ f.mantissa * 2 ^ 29 := Dvd.intro_left _ rfl
  apply Nat.mod_eq_zero_of_dvd
  unfold Float32.toDouble
  simp only []
  split
  · have hq : (2 : Nat) ^ 29
        ∣ (if f.mantissa ≠ 0 ∧ f.mantissa / 2 ^ 22 = 0 then 2 ^ 51 else 0) := by
      split
      · exact Nat.pow_dvd_pow 2 (by decide)
      · exact Nat.dvd_zero _
    exact Nat.dvd_add (Nat.dvd_add (Nat.dvd_add h63 (h52 _)) h29) hq
  · split
    · split
      · exact h63
      · rename_i hm
        have hlt : f.mantissa < 2 ^ 23 := Nat.mod_lt _ (by decide)
        have hk : Nat.log2 f.mantissa < 23 := (Nat.log2_lt hm).2 hlt
        have : (2 : Nat) ^ 29 ∣ (f.mantissa - 2 ^ Nat.log2 f.mantissa)
            * 2 ^ (52 - Nat.log2 f.mantissa) :=
          Dvd.dvd.mul_left (Nat.pow_dvd_pow 2 (by omega)) _
        exact Nat.dvd_add (Nat.dvd_add h63 (h52 _)) this
    · exact Nat.dvd_add (Nat.dvd_add h63 (h52 _)) h29

/-- For an operator outside `+ - * <`, a binary expression over two number
literals returns a null `llvm::Value*`, and the only change to the generator
is the diagnostic "invalid binary operator" appended to the log; and over any
two operands, whenever the visit returns at all, it returns that failure,
with that one diagnostic and the emitted instructions as before. -/
theorem visit_binary_invalid_operator (op_ : Char)
    (hop : op_ ≠ '+' ∧ op_ ≠ '-' ∧ op_ ≠ '*' ∧ op_ ≠ '<') :
    (∀ (x y : Double) (st : CodeGenerator),
      visit (ExprAstNode.binaryExpr op_ (ExprAstNode.number x) (ExprAstNode.number y)) st
        = (Outcome.ret (AnyResult.value none),
            { st with log := st.log ++ ["invalid binary operator"] })) ∧
    (∀ (lhs_ rhs_ : ExprAstNode) (st st' : CodeGenerator) (a : AnyResult),
      visit (ExprAstNode.binaryExpr op_ lhs_ rhs_) st = (Outcome.ret a, st') →
        a = AnyResult.value none ∧ st'.emitted = st.emitted ∧
        st'.log = st.log ++ ["invalid binary operator"]) := by
  obtain ⟨h1, h2, h3, h4⟩ := hop
  have hlit : ∀ (x y : Double) (st : CodeGenerator),
      visit (ExprAstNode.binaryExpr op_ (ExprAstNode.number x) (ExprAstNode.number y)) st
        = (Outcome.ret (AnyResult.value none),
            { st with log := st.log ++ ["invalid binary operator"] }) := by
    intro x y st
    simp [visit_binary_numbers, binarySwitch_eq, h1, h2, h3, h4, returnLogErrorV, logErrorV]
  refine ⟨hlit, ?_⟩
  intro lhs_ rhs_ st st' a h
  obtain ⟨x, y, hx, hy⟩ := visit_binary_ret_numbers (a := a) (by rw [h])
  subst hx hy
  rw [hlit] at h
  simp only [Prod.mk.injEq, Outcome.ret.injEq] at h
  obtain ⟨ha, hst⟩ := h
  subst ha hst
  exact ⟨rfl, rfl, rfl⟩

/-! ### Diagnostics -/

/-- A visit that returns an `llvm::Value*` has logged exactly one diagnostic
when the pointer is null and none when it is not. -/
theorem visit_value_log {e : ExprAstNode} {st st' : CodeGenerator} {p : Option Value}
    (h : visit e st = (Outcome.ret (AnyResult.value p), st')) :
    (p = none → ∃ msg, st'.log = st.log ++ [msg]) ∧ (p ≠ none → st'.log = st.log) := by
  cases e with
  | number v => simp [visit] at h
  | variableExpr name_ =>
    simp only [visit, visitVariable] at h
    split at h
    · simp only [returnLogErrorV, logErrorV, Prod.mk.injEq, Outcome.ret.injEq,
        AnyResult.value.injEq] at h
      obtain ⟨hp, hst⟩ := h
      subst hp hst
      exact ⟨fun _ => ⟨_, rfl⟩, fun hne => absurd rfl hne⟩
    · simp only [Prod.mk.injEq, Outcome.ret.injEq, AnyResult.value.injEq] at h
      obtain ⟨hp, hst⟩ := h
      subst hp hst
      exact ⟨fun hn => by simp at hn, fun _ => rfl⟩
  | binaryExpr op_ lhs_ rhs_ =>
    obtain ⟨x, y, hx, hy⟩ := visit_binary_ret_numbers (a := AnyResult.value p) (by rw [h])
    subst hx hy
    rw [visit_binary_numbers, binarySwitch_eq] at h
    split_ifs at h <;>
      simp only [returnLogErrorV, logErrorV, Prod.mk.injEq, Outcome.ret.injEq,
        AnyResult.value.injEq] at h <;>
      obtain ⟨hp, hst⟩ := h <;> subst hp hst
    · exact ⟨fun hn => by simp at hn, fun _ => rfl⟩
    · exact ⟨fun hn => by simp at hn, fun _ => rfl⟩
    · exact ⟨fun hn => by simp at hn, fun _ => rfl⟩
    · exact ⟨fun hn => by simp at hn, fun _ => rfl⟩
    · exact ⟨fun _ => ⟨_, rfl⟩, fun hne => absurd rfl hne⟩
  | callExpr callee_ args_ =>
    simp only [visit, visitCall] at h
    split at h
    · simp only [returnLogErrorV, logErrorV, Prod.mk.injEq, Outcome.ret.injEq,
        AnyResult.value.injEq] at h
      obtain ⟨hp, hst⟩ := h
      subst hp hst
      exact ⟨fun _ => ⟨_, rfl⟩, fun hne => absurd rfl hne⟩
    · split at h
      · simp at h
      · split at h
        · simp only [returnLogErrorV, logErrorV, Prod.mk.injEq, Outcome.ret.injEq,
            AnyResult.value.injEq] at h
          obtain ⟨hp, hst⟩ := h
          subst hp hst
          exact ⟨fun _ => ⟨_, rfl⟩, fun hne => absurd rfl hne⟩
        · simp [CodeGenerator.emit] at h
  | prototype node => simp [visit, visitPrototype] at h
  | function proto_ body_ =>
    rcases visit_function_fst proto_ body_ st with h1 | h1 | h1 | ⟨q, h1⟩ <;>
      rw [h] at h1 <;> simp at h1

/-- The lookup of lines 240-243 always yields a function, the one registered
under the prototype's name, and touches nothing but the module. -/
theorem functionLookup_eq (proto : PrototypeAstNode) (st : CodeGenerator) :
    functionLookup proto st
      = (some (some proto.name_),
          { st with module_ :=
              match st.module_.getFunction proto.name_ with
              | some _ => st.module_
              | none => st.module_.createFunction proto.name_ proto.args_ }) := by
  unfold functionLookup
  cases h : st.module_.getFunction proto.name_ with
  | none => rfl
  | some f => simp [getFunction_name h]

/-- A definition that returns has logged exactly one diagnostic when it
returns a failure and none when it returns the function. -/
theorem visit_function_log {proto_ : Option PrototypeAstNode} {body_ : ExprAstNode}
    {st st' : CodeGenerator} {a : AnyResult}
    (h : visit (ExprAstNode.function proto_ body_) st = (Outcome.ret a, st')) :
    (a.isFailure = true → ∃ msg, st'.log = st.log ++ [msg]) ∧
    (a.isFailure = false → st'.log = st.log) := by
  simp only [visit] at h
  cases proto_ with
  | none => simp at h
  | some proto =>
    simp only [functionLookup_eq] at h
    generalize (match st.module_.getFunction proto.name_ with
      | some _ => st.module_
      | none => st.module_.createFunction proto.name_ proto.args_) = m1 at h
    cases hg : m1.getFunction proto.name_ with
    | none => rw [hg] at h; simp at h
    | some f =>
      rw [hg] at h
      simp only [] at h
      cases hb : f.blocks.isEmpty with
      | false =>
        simp only [hb, logErrorV, Bool.false_eq_true, if_false, Prod.mk.injEq,
          Outcome.ret.injEq] at h
        obtain ⟨ha, hst⟩ := h
        subst ha hst
        exact ⟨fun _ => ⟨_, rfl⟩, fun hf => by simp [AnyResult.isFailure] at hf⟩
      | true =>
        simp only [hb, if_true] at h
        cases hv : visit body_ (functionEnter f { st with module_ := m1 }) with
        | mk o st5 =>
          rw [hv] at h
          cases o with
          | badAnyCast => simp [functionFinish] at h
          | undefined => simp [functionFinish] at h
          | ret b =>
            cases b with
            | constantFP q => simp [functionFinish, anyCastValue] at h
            | nullptr => simp [functionFinish, anyCastValue] at h
            | callInst q => simp [functionFinish, anyCastValue] at h
            | function q => simp [functionFinish, anyCastValue] at h
            | value p =>
              obtain ⟨hnone, hsome⟩ := visit_value_log hv
              cases p with
              | none =>
                simp only [functionFinish, anyCastValue, Prod.mk.injEq,
                  Outcome.ret.injEq] at h
                obtain ⟨ha, hst⟩ := h
                subst ha hst
                obtain ⟨msg, hmsg⟩ := hnone rfl
                exact ⟨fun _ => ⟨msg, hmsg⟩, fun hf => by simp [AnyResult.isFailure] at hf⟩
              | some v =>
                simp only [functionFinish, anyCastValue, CodeGenerator.emit, Prod.mk.injEq,
                  Outcome.ret.injEq] at h
                obtain ⟨ha, hst⟩ := h
                subst ha hst
                have hlog := hsome (by simp)
                exact ⟨fun hf => by simp [AnyResult.isFailure] at hf, fun _ => hlog⟩

/-! ### The symbol table around a definition -/

theorem mapFind_append_singleton (key n : String) (v : Option Value)
    (m : List (String × Option Value)) :
    mapFind key (m ++ [(n, v)])
      = match mapFind key m with
        | some p => some p
        | none => if n = key then some v else none := by
  induction m with
  | nil => simp [mapFind]
  | cons e rest ih =>
    obtain ⟨k, w⟩ := e
    by_cases hk : k = key
    · simp [mapFind, hk]
    · simp [mapFind, hk, ih]

/-- The binding loop stores no null pointer. -/
theorem mapFind_bindArgs_ne_null (function : String) :
    ∀ (args : List String) (idx : Nat) (m : List (String × Option Value)),
      (∀ k p, mapFind k m = some p → p ≠ none) →
      ∀ k p, mapFind k (bindArgs function args idx m) = some p → p ≠ none := by
  intro args
  induction args with
  | nil => intro idx m hm k p h; exact hm k p h
  | cons a rest ih =>
    intro idx m hm k p h
    simp only [bindArgs] at h
    refine ih (idx + 1) _ ?_ k p h
    intro k' p' h'
    by_cases hk : a = k'
    · subst hk
      rw [mapFind_mapAssign_self] at h'
      cases h'
      simp
    · rw [mapFind_mapAssign_of_ne hk] at h'
      exact hm k' p' h'

/-- The visit of a definition whose name is declared without a body, in terms
of the visit of its body. -/
theorem visit_function_declared {st : CodeGenerator} {proto : PrototypeAstNode}
    {f : Function} (body_ : ExprAstNode) (h : st.module_.getFunction proto.name_ = some f)
    (hempty : f.blocks = []) :
    visit (ExprAstNode.function (some proto) body_) st
      = functionFinish proto.name_ (visit body_ (functionEnter f st)) := by
  simp only [visit, functionLookup_eq, h, hempty, List.isEmpty_nil, if_true]

theorem getFunction_updateFunction (name : String) (F : Function → Function)
    (hF : ∀ g, (F g).name = g.name) (l : List Function) :
    Module.getFunction { functions := updateFunction name F l } name
      = (Module.getFunction { functions := l } name).map F := by
  induction l with
  | nil => rfl
  | cons g rest ih =>
    by_cases hg : g.name = name
    · simp [Module.getFunction, updateFunction, hg, hF]
    · simp only [Module.getFunction] at ih
      simp [Module.getFunction, updateFunction, hg, ih]

/-! ### Claims -/

/-- C1: generation can raise. Whatever the operator, the right operand and the
generator state, a binary expression whose left operand is a variable
reference ends in a thrown `std::bad_any_cast` (the operand's `llvm::Value*`
result is cast to `llvm::ConstantFP*`); so does `(1.0 + 1.0) + 1.0`, whose
left operand is a binary expression that generates successfully; and so does
the definition `id(x) = 1.0` on a fresh generator (the body's
`llvm::ConstantFP*` result is cast to `llvm::Value*`). -/
theorem c1_visit_raises_bad_any_cast :
    (∀ (op_ : Char) (name_ : String) (rhs_ : ExprAstNode) (st : CodeGenerator),
      (visit (ExprAstNode.binaryExpr op_ (ExprAstNode.variableExpr name_) rhs_) st).1
        = Outcome.badAnyCast) ∧
    (visit (ExprAstNode.binaryExpr '+' onePlusOne (ExprAstNode.number one))
      CodeGenerator.init).1 = Outcome.badAnyCast ∧
    (visit (ExprAstNode.function (some idProto) (ExprAstNode.number one))
      CodeGenerator.init).1 = Outcome.badAnyCast := by
  refine ⟨?_, by decide, by decide⟩
  intro op_ name_ rhs_ st
  obtain ⟨p, hp⟩ := visitVariable_fst name_ st
  have h : visitVariable name_ st
      = (Outcome.ret (AnyResult.value p), (visitVariable name_ st).2) := by
    rw [← hp]
  simp only [visit]
  rw [h]
  rfl

/-- C2: the node built by `FunctionAstNode(p, b)` does not expose `p`. Its
`proto()` is whatever the uninitialised member held, for every `p`; on zeroed
storage it is null, so it differs from the prototype `Prototype("id", ["x"])`
handed to the constructor. Only `body()` is the `b` handed in. -/
theorem c2_ctor_drops_prototype :
    (∀ (uninit : Option PrototypeAstNode) (p : PrototypeAstNode) (b : ExprAstNode),
      (FunctionAstNode.ctor uninit p b).proto = uninit ∧
      (FunctionAstNode.ctor uninit p b).body = some b) ∧
    (FunctionAstNode.ctor none idProto (ExprAstNode.variableExpr "x")).proto
      ≠ some idProto := by
  refine ⟨fun _ _ _ => ⟨rfl, rfl⟩, ?_⟩
  simp [FunctionAstNode.ctor, ExprAstNode.proto]

/-- C3: a failed body can leave the half-built function behind. On a fresh
generator the definition `f() = a + 1.0` with `a` unbound logs the unknown
variable and then ends in a thrown `std::bad_any_cast`; the definition of
`f()` whose body is the failing definition `g() = zz` gets the failure result
`nullptr` from its body and also ends in `std::bad_any_cast`. In both runs
the visit does not return failure, and `f` stays in the module with its empty
entry block. -/
theorem c3_failed_body_leaves_function :
    visit unboundBodyDef CodeGenerator.init
      = (Outcome.badAnyCast,
          { module_ := { functions :=
              [{ name := "f", args := [], blocks := [{ name := "entry", insts := [] }] }] },
            insertPoint := some ("f", 0),
            nameValues_ := [("a", none)],
            emitted := [],
            log := ["Unknown variable name."] }) ∧
    (visit gDef enteredF).1 = Outcome.ret AnyResult.nullptr ∧
    visit nestedDef CodeGenerator.init
      = (Outcome.badAnyCast,
          { module_ := { functions :=
              [{ name := "f", args := [], blocks := [{ name := "entry", insts := [] }] }] },
            insertPoint := some ("g", 0),
            nameValues_ := [("zz", none)],
            emitted := [],
            log := ["Unknown variable name."] }) := by
  refine ⟨by decide, by decide, by decide⟩

/-- C4, counterexample: on a generator whose module declares `id(x)` without a
body, the definition `id(x) = zz` fails (its body refers to the unbound `zz`),
and the module, which held one function before the attempt, holds none
after it. -/
theorem c4_function_count_counterexample :
    declaredId.module_.getFunction "id" = some { name := "id", args := ["x"], blocks := [] } ∧
    (visit unboundIdDef declaredId).1 = Outcome.ret AnyResult.nullptr ∧
    declaredId.module_.functions.length = 1 ∧
    (visit unboundIdDef declaredId).2.module_.functions.length = 0 ∧
    (visit unboundIdDef declaredId).2.module_.functions.length
      ≠ declaredId.module_.functions.length := by
  refine ⟨by decide, by decide, by decide, by decide, by decide⟩

/-- C4, amended: a failed definition changes the number of functions only by
erasing a prior declaration. When the visit of a definition returns a failure
(a null result): if the prototype's name was declared in the module without a
body before the attempt, the module has exactly one function less afterwards
(the declaration is erased); otherwise (the name was absent, or already had a
body) the number of functions is the same as before. -/
theorem c4_failed_definition_function_count (st : CodeGenerator)
    (proto : PrototypeAstNode) (body_ : ExprAstNode) (a : AnyResult) (st' : CodeGenerator)
    (hv : visit (ExprAstNode.function (some proto) body_) st = (Outcome.ret a, st'))
    (hfail : a.isFailure = true) :
    ((∃ f, st.module_.getFunction proto.name_ = some f ∧ f.blocks = []) →
      st'.module_.functions.length + 1 = st.module_.functions.length) ∧
    ((¬ ∃ f, st.module_.getFunction proto.name_ = some f ∧ f.blocks = []) →
      st'.module_.functions.length = st.module_.functions.length) := by
  simp only [visit] at hv
  cases hg : st.module_.getFunction proto.name_ with
  | none =>
    refine ⟨fun ⟨f, hf, _⟩ => by simp at hf, fun _ => ?_⟩
    have hnew : (st.module_.createFunction proto.name_ proto.args_).getFunction proto.name_
        = some { name := proto.name_, args := proto.args_, blocks := [] } := by
      unfold Module.getFunction at hg
      simp [Module.getFunction, Module.createFunction, List.find?_append, hg]
    simp only [functionLookup, hg, visitPrototype, anyCastFunction, hnew,
      List.isEmpty_nil, if_true] at hv
    have := failed_body_length (by simp [Module.createFunction]) hv hfail
    simp only [Module.createFunction, List.length_append, List.length_singleton] at this
    omega
  | some f =>
    have hself := getFunction_self hg
    simp only [functionLookup, hg, hself] at hv
    have hmem : f.name ∈ st.module_.functions.map Function.name :=
      List.mem_map.2 ⟨f, List.mem_of_find?_eq_some hg, rfl⟩
    cases hb : f.blocks with
    | nil =>
      refine ⟨fun _ => ?_, fun hno => absurd ⟨f, rfl, hb⟩ hno⟩
      simp only [hb, List.isEmpty_nil, if_true] at hv
      exact failed_body_length hmem hv hfail
    | cons b rest =>
      refine ⟨fun ⟨g, hg2, hgb⟩ => ?_, fun _ => ?_⟩
      · cases hg2
        rw [hb] at hgb
        cases hgb
      · simp only [hb, List.isEmpty_cons, logErrorV, Bool.false_eq_true, if_false,
          Prod.mk.injEq] at hv
        obtain ⟨_, h2⟩ := hv
        subst h2
        rfl

/-- C4, witness: the failing definition `id(x) = zz` on a module that declares
`id(x)` without a body (one function less afterwards), and on a fresh
generator (as many functions as before). -/
theorem c4_failed_definition_function_count_witness :
    (visit unboundIdDef declaredId
        = (Outcome.ret AnyResult.nullptr, (visit unboundIdDef declaredId).2) ∧
      (visit unboundIdDef declaredId).2.module_.functions.length + 1
        = declaredId.module_.functions.length) ∧
    (visit unboundIdDef CodeGenerator.init
        = (Outcome.ret AnyResult.nullptr, (visit unboundIdDef CodeGenerator.init).2) ∧
      (visit unboundIdDef CodeGenerator.init).2.module_.functions.length
        = CodeGenerator.init.module_.functions.length) :=
  ⟨⟨by decide,
    (c4_failed_definition_function_count declaredId idProto (ExprAstNode.variableExpr "zz")
      AnyResult.nullptr (visit unboundIdDef declaredId).2 (by decide) (by decide)).1
      ⟨{ name := "id", args := ["x"], blocks := [] }, by decide, rfl⟩⟩,
   ⟨by decide,
    (c4_failed_definition_function_count CodeGenerator.init idProto
      (ExprAstNode.variableExpr "zz") AnyResult.nullptr
      (visit unboundIdDef CodeGenerator.init).2 (by decide) (by decide)).2
      (by decide)⟩⟩

/-- C5: redefinition is rejected without touching the module. When the module
already holds a function with a non-empty body under the prototype's name,
visiting the definition returns a null `llvm::Function*`, and the only change
to the generator is the diagnostic "Function cannot be redefined." appended
to the log: module, builder, symbol table and emitted instructions are as
before. -/
theorem c5_redefinition_rejected (st : CodeGenerator) (proto : PrototypeAstNode)
    (body_ : ExprAstNode) (f : Function)
    (hf : st.module_.getFunction proto.name_ = some f) (hbody : f.blocks ≠ []) :
    visit (ExprAstNode.function (some proto) body_) st
      = (Outcome.ret (AnyResult.function none),
          { st with log := st.log ++ ["Function cannot be redefined."] }) := by
  have hself := getFunction_self hf
  have hne : f.blocks.isEmpty = false := by
    cases hb : f.blocks with
    | nil => exact absurd hb hbody
    | cons _ _ => rfl
  simp [visit, functionLookup, hf, hself, hne, logErrorV]

/-- C5, witness: generating `id(x) = x` on a fresh generator succeeds, and
generating it a second time fails with the redefinition diagnostic and
leaves the function built by the first attempt as it was. -/
theorem c5_redefinition_rejected_witness :
    (visit idDef CodeGenerator.init).1 = Outcome.ret (AnyResult.function (some "id")) ∧
    visit idDef (visit idDef CodeGenerator.init).2
      = (Outcome.ret (AnyResult.function none),
          { (visit idDef CodeGenerator.init).2 with
            log := (visit idDef CodeGenerator.init).2.log
              ++ ["Function cannot be redefined."] }) :=
  ⟨by decide,
   c5_redefinition_rejected (visit idDef CodeGenerator.init).2 idProto
    (ExprAstNode.variableExpr "x")
    { name := "id", args := ["x"],
      blocks := [{ name := "entry",
                   insts := [{ id := 0, op := Opcode.ret,
                               operands := [Value.argument "id" 0], name := "" }] }] }
    (by decide) (by decide)⟩

/-- C6: the definition `id(x) = x` built by the constructor cannot be
generated. The node `FunctionAstNode(Prototype("id", ["x"]), x)` on zeroed
storage has a null `proto()`, and visiting it on a fresh generator reads the
prototype's name through that pointer: undefined behaviour, with no function
`id` in the module. More generally, a node built on zeroed storage is never
generated, whatever prototype, body and generator state. -/
theorem c6_constructed_definition_not_generated :
    visit (FunctionAstNode.ctor none idProto (ExprAstNode.variableExpr "x"))
        CodeGenerator.init
      = (Outcome.undefined, CodeGenerator.init) ∧
    CodeGenerator.init.module_.getFunction "id" = none ∧
    (∀ (p : PrototypeAstNode) (b : ExprAstNode) (st : CodeGenerator),
      visit (FunctionAstNode.ctor none p b) st = (Outcome.undefined, st)) := by
  refine ⟨by decide, by decide, ?_⟩
  intro p b st
  simp [FunctionAstNode.ctor, visit]

/-- C7: a call with an argument is never emitted. On a generator whose module
declares `f(a)` and whose symbol table binds `x`, the argument `x` generates
successfully, yet visiting `f(x)` runs into the out-of-bounds write of
`args()` and emits nothing; and in no state does a call expression with at
least one argument return anything but the unknown-function failure. -/
theorem c7_call_with_argument_not_emitted :
    (visit (ExprAstNode.variableExpr "x") declaredF1).1
      = Outcome.ret (AnyResult.value (some (Value.argument "id" 0))) ∧
    declaredF1.module_.getFunction "f" = some { name := "f", args := ["a"], blocks := [] } ∧
    visit (ExprAstNode.callExpr "f" [ExprAstNode.variableExpr "x"]) declaredF1
      = (Outcome.undefined, declaredF1) ∧
    (∀ (callee_ : String) (a : ExprAstNode) (rest : List ExprAstNode) (st : CodeGenerator),
      (visit (ExprAstNode.callExpr callee_ (a :: rest)) st).1 = Outcome.undefined ∨
      visit (ExprAstNode.callExpr callee_ (a :: rest)) st
        = returnLogErrorV "Unknown function referenced" st) := by
  refine ⟨by decide, by decide, by decide, ?_⟩
  intro callee_ a rest st
  simp only [visit, visitCall, CallExprAstNode.args]
  cases st.module_.getFunction callee_ with
  | none => right; rfl
  | some f => left; rfl

/-- C8: the arity check does not see the argument count. On a generator whose
module declares `f()` with no parameter, visiting the one-argument call
`f(1.0)` logs no arity diagnostic and returns no failure: it runs into the
out-of-bounds write of `args()`. -/
theorem c8_arity_mismatch_not_reported :
    visit (ExprAstNode.callExpr "f" [ExprAstNode.number one]) declaredF0
      = (Outcome.undefined, declaredF0) ∧
    declaredF0.log = [] ∧
    declaredF0.module_.getFunction "f" = some { name := "f", args := [], blocks := [] } := by
  refine ⟨by decide, by decide, by decide⟩

/-- C9: a call to an undeclared function fails cleanly. When the module has no
function named `callee_`, visiting the call, whatever its arguments, returns a
null `llvm::Value*`, and the only change to the generator is the diagnostic
"Unknown function referenced" appended to the log: no instruction is emitted
and the module is as before. -/
theorem c9_unknown_callee (st : CodeGenerator) (callee_ : String)
    (args_ : List ExprAstNode) (h : st.module_.getFunction callee_ = none) :
    visit (ExprAstNode.callExpr callee_ args_) st
      = (Outcome.ret (AnyResult.value none),
          { st with log := st.log ++ ["Unknown function referenced"] }) := by
  simp [visit, visitCall, h, returnLogErrorV, logErrorV]

/-- C9, witness: the call `foo()` on a fresh generator. -/
theorem c9_unknown_callee_witness :
    CodeGenerator.init.module_.getFunction "foo" = none ∧
    visit (ExprAstNode.callExpr "foo" []) CodeGenerator.init
      = (Outcome.ret (AnyResult.value none),
          { CodeGenerator.init with
            log := CodeGenerator.init.log ++ ["Unknown function referenced"] }) :=
  ⟨by decide, c9_unknown_callee CodeGenerator.init "foo" [] (by decide)⟩

/-- C10: variable references. When the symbol table has no entry for `name_`,
the visit returns a null `llvm::Value*`, appends the single diagnostic
"Unknown variable name." to the log, emits no instruction and leaves the
module as it was; when `name_` is bound to a value `v`, the visit returns `v`
and changes nothing in the generator. -/
theorem c10_variable_reference (st : CodeGenerator) (name_ : String) :
    (mapFind name_ st.nameValues_ = none →
      (visit (ExprAstNode.variableExpr name_) st).1 = Outcome.ret (AnyResult.value none) ∧
      (visit (ExprAstNode.variableExpr name_) st).2.log
        = st.log ++ ["Unknown variable name."] ∧
      (visit (ExprAstNode.variableExpr name_) st).2.emitted = st.emitted ∧
      (visit (ExprAstNode.variableExpr name_) st).2.module_ = st.module_) ∧
    (∀ v : Value, mapFind name_ st.nameValues_ = some (some v) →
      visit (ExprAstNode.variableExpr name_) st
        = (Outcome.ret (AnyResult.value (some v)), st)) := by
  constructor
  · intro h
    simp [visit, visitVariable, mapIndex, h, returnLogErrorV, logErrorV]
  · intro v h
    simp [visit, visitVariable, mapIndex, h]

/-- C10, witness: `a` is unbound in a fresh generator, `x` is bound to the
parameter of `id` in `declaredF1`. -/
theorem c10_variable_reference_witness :
    (mapFind "a" CodeGenerator.init.nameValues_ = none ∧
      (visit (ExprAstNode.variableExpr "a") CodeGenerator.init).1
        = Outcome.ret (AnyResult.value none) ∧
      (visit (ExprAstNode.variableExpr "a") CodeGenerator.init).2.log
        = CodeGenerator.init.log ++ ["Unknown variable name."] ∧
      (visit (ExprAstNode.variableExpr "a") CodeGenerator.init).2.emitted
        = CodeGenerator.init.emitted ∧
      (visit (ExprAstNode.variableExpr "a") CodeGenerator.init).2.module_
        = CodeGenerator.init.module_) ∧
    (mapFind "x" declaredF1.nameValues_ = some (some (Value.argument "id" 0)) ∧
      visit (ExprAstNode.variableExpr "x") declaredF1
        = (Outcome.ret (AnyResult.value (some (Value.argument "id" 0))), declaredF1)) :=
  ⟨⟨by decide, (c10_variable_reference CodeGenerator.init "a").1 (by decide)⟩,
   ⟨by decide, (c10_variable_reference declaredF1 "x").2 (Value.argument "id" 0) (by decide)⟩⟩

/-- C11, counterexample: the expression of `main`, `4 + 2` on a fresh
generator, generates successfully and appends no instruction: the builder
folds the float-add of the constants `4.0` and `2.0` into a constant, which
is the value returned, and the generator is as before. -/
theorem c11_main_folded_counterexample :
    visit mainExpr CodeGenerator.init
      = (Outcome.ret (AnyResult.value (some (Value.constant
          (Constant.fadd (Constant.fp four) (Constant.fp two))))), CodeGenerator.init) ∧
    (visit mainExpr CodeGenerator.init).2.emitted = [] := by
  refine ⟨by decide, by decide⟩

/-- C11, amended: over two number literals each of `+`, `-`, `*` and `<`
generates successfully and appends no instruction. The value returned is the
constant the builder folds from the operation on the two constants in order
(float-add, float-subtract, float-multiply; for `<` the less-than compare and
then the conversion of its result), and the generator is left exactly as it
was. -/
theorem c11_binary_on_literals (x y : Double) (st : CodeGenerator) :
    visit (ExprAstNode.binaryExpr '+' (ExprAstNode.number x) (ExprAstNode.number y)) st
      = (Outcome.ret (AnyResult.value (some (Value.constant
          (Constant.fadd (Constant.fp x) (Constant.fp y))))), st) ∧
    visit (ExprAstNode.binaryExpr '-' (ExprAstNode.number x) (ExprAstNode.number y)) st
      = (Outcome.ret (AnyResult.value (some (Value.constant
          (Constant.fsub (Constant.fp x) (Constant.fp y))))), st) ∧
    visit (ExprAstNode.binaryExpr '*' (ExprAstNode.number x) (ExprAstNode.number y)) st
      = (Outcome.ret (AnyResult.value (some (Value.constant
          (Constant.fmul (Constant.fp x) (Constant.fp y))))), st) ∧
    visit (ExprAstNode.binaryExpr '<' (ExprAstNode.number x) (ExprAstNode.number y)) st
      = (Outcome.ret (AnyResult.value (some (Value.constant
          (Constant.uiToFP (Constant.fcmpULT (Constant.fp x) (Constant.fp y)))))), st) := by
  refine ⟨?_, ?_, ?_, ?_⟩ <;> simp [visit_binary_numbers, binarySwitch_eq]

/-- C12: an operand that is not a literal makes the binary expression raise
before its operator is examined. On a fresh generator the left operand
`1.0 + 1.0` generates successfully, yet `(1.0 + 1.0) / 1.0` ends in
`std::bad_any_cast`, with no diagnostic logged; and in `declaredF1`, where
`x` generates to the parameter of `id`, `x / 1.0` ends the same way. -/
theorem c12_operand_raises_before_operator :
    visit onePlusOne CodeGenerator.init
      = (Outcome.ret (AnyResult.value (some (Value.constant
          (Constant.fadd (Constant.fp one) (Constant.fp one))))), CodeGenerator.init) ∧
    visit (ExprAstNode.binaryExpr '/' onePlusOne (ExprAstNode.number one)) CodeGenerator.init
      = (Outcome.badAnyCast, CodeGenerator.init) ∧
    (visit (ExprAstNode.variableExpr "x") declaredF1).1
      = Outcome.ret (AnyResult.value (some (Value.argument "id" 0))) ∧
    visit (ExprAstNode.binaryExpr '/' (ExprAstNode.variableExpr "x") (ExprAstNode.number one))
        declaredF1 = (Outcome.badAnyCast, declaredF1) := by
  refine ⟨by decide, by decide, by decide, by decide⟩

/-- C13: visiting a prototype declares the function. When the module has no
function named as the prototype, the visit returns the new function; the
module is the old one followed by a declaration with that name, one parameter
per prototype parameter displaying the prototype's names in order, and no
block; a lookup of the name finds that declaration; every other lookup, and
the rest of the generator, is as before. -/
theorem c13_prototype_declares (st : CodeGenerator) (node : PrototypeAstNode)
    (h : st.module_.getFunction node.name_ = none) :
    visit (ExprAstNode.prototype node) st
      = (Outcome.ret (AnyResult.function (some node.name_)),
          { st with module_ := { functions := st.module_.functions ++
              [{ name := node.name_, args := node.args_, blocks := [] }] } }) ∧
    (visit (ExprAstNode.prototype node) st).2.module_.getFunction node.name_
      = some { name := node.name_, args := node.args_, blocks := [] } ∧
    (∀ g : String, g ≠ node.name_ →
      (visit (ExprAstNode.prototype node) st).2.module_.getFunction g
        = st.module_.getFunction g) := by
  refine ⟨rfl, ?_, ?_⟩
  · unfold Module.getFunction at h
    simp [visit, visitPrototype, Module.getFunction, Module.createFunction,
      List.find?_append, h]
  · intro g hg
    have hne : ¬ node.name_ = g := fun e => hg e.symm
    simp only [visit, visitPrototype, Module.getFunction, Module.createFunction,
      List.find?_append]
    cases st.module_.functions.find? (fun f => decide (f.name = g)) with
    | none => simp [hne]
    | some f => rfl

/-- C13, witness: the prototype `id(x)` on a fresh generator. -/
theorem c13_prototype_declares_witness :
    CodeGenerator.init.module_.getFunction idProto.name_ = none ∧
    visit (ExprAstNode.prototype idProto) CodeGenerator.init
      = (Outcome.ret (AnyResult.function (some "id")),
          { CodeGenerator.init with
            module_ := { functions := [{ name := "id", args := ["x"], blocks := [] }] } }) :=
  ⟨by decide, (c13_prototype_declares CodeGenerator.init idProto (by decide)).1⟩

/-- C14: a `double` literal does not survive construction. Generating a
constructed number node always succeeds without touching the generator and
yields the constant `value()`; but `value()` is the widening of the `float`
the constructor received, so whatever `float` a `double` is converted to at
the call, no node has the value `0.1` (`0x3FB999999999999A`): the node built
from the nearest `float` holds `0x3FB99999A0000000`. -/
theorem c14_literal_narrowed_to_float :
    (∀ (f : Float32) (st : CodeGenerator),
      visit (NumberAstNode.ctor f) st
        = (Outcome.ret (AnyResult.constantFP (NumberAstNode.ctor f).value), st)) ∧
    (∀ f : Float32, (NumberAstNode.ctor f).value ≠ some tenth) ∧
    (NumberAstNode.ctor tenthFloat).value = some { bits := 4591870180174331904 } := by
  refine ⟨fun _ _ => rfl, ?_, by decide⟩
  intro f hf
  simp only [NumberAstNode.ctor, ExprAstNode.value, Option.some.injEq] at hf
  have h := toDouble_low_bits f
  rw [hf] at h
  revert h
  decide

/-- C15: a failing operand makes the binary expression raise instead of
returning failure. Whatever the operator, the right operand and the state, a
binary expression whose left operand is a variable reference ends in
`std::bad_any_cast` in the state its left operand left behind, the right
operand not having been visited. On a fresh generator `a + b` logs the one
diagnostic for `a` and raises, and `1.0 + b` logs the one diagnostic for `b`
and raises without emitting an instruction. -/
theorem c15_failed_operand_raises :
    (∀ (op_ : Char) (name_ : String) (rhs_ : ExprAstNode) (st : CodeGenerator),
      visit (ExprAstNode.binaryExpr op_ (ExprAstNode.variableExpr name_) rhs_) st
        = (Outcome.badAnyCast, (visit (ExprAstNode.variableExpr name_) st).2)) ∧
    visit (ExprAstNode.binaryExpr '+' (ExprAstNode.variableExpr "a")
        (ExprAstNode.variableExpr "b")) CodeGenerator.init
      = (Outcome.badAnyCast,
          { CodeGenerator.init with
            nameValues_ := [("a", none)], log := ["Unknown variable name."] }) ∧
    visit (ExprAstNode.binaryExpr '+' (ExprAstNode.number one)
        (ExprAstNode.variableExpr "b")) CodeGenerator.init
      = (Outcome.badAnyCast,
          { CodeGenerator.init with
            nameValues_ := [("b", none)], log := ["Unknown variable name."] }) := by
  refine ⟨?_, by decide, by decide⟩
  intro op_ name_ rhs_ st
  obtain ⟨p, hp⟩ := visitVariable_fst name_ st
  have h : visitVariable name_ st
      = (Outcome.ret (AnyResult.value p), (visitVariable name_ st).2) := by
    rw [← hp]
  simp only [visit]
  rw [h]
  rfl

/-- C16: one diagnostic per failure, none on success. Whenever the visit of a
tree returns, in any generator state: if the result is a failure (a null
pointer), the log afterwards is the log before followed by exactly one
diagnostic; if the result is not a failure, the log is as before. -/
theorem c16_one_diagnostic_per_failure (e : ExprAstNode) (st st' : CodeGenerator)
    (a : AnyResult) (h : visit e st = (Outcome.ret a, st')) :
    (a.isFailure = true → ∃ msg, st'.log = st.log ++ [msg]) ∧
    (a.isFailure = false → st'.log = st.log) := by
  cases e with
  | number v =>
    simp only [visit, Prod.mk.injEq, Outcome.ret.injEq] at h
    obtain ⟨ha, hst⟩ := h
    subst ha hst
    exact ⟨fun hf => by simp [AnyResult.isFailure] at hf, fun _ => rfl⟩
  | variableExpr name_ =>
    obtain ⟨p, hp⟩ := visitVariable_fst name_ st
    have h1 : (visit (ExprAstNode.variableExpr name_) st).1 = Outcome.ret a := by rw [h]
    simp only [visit] at h1
    rw [hp] at h1
    cases h1
    obtain ⟨hnone, hsome⟩ := visit_value_log h
    cases p with
    | none => exact ⟨fun _ => hnone rfl, fun hf => by simp [AnyResult.isFailure] at hf⟩
    | some v =>
      exact ⟨fun hf => by simp [AnyResult.isFailure] at hf, fun _ => hsome (by simp)⟩
  | binaryExpr op_ lhs_ rhs_ =>
    obtain ⟨x, y, hx, hy⟩ := visit_binary_ret_numbers (a := a) (by rw [h])
    subst hx hy
    have h1 : (visit (ExprAstNode.binaryExpr op_ (ExprAstNode.number x)
        (ExprAstNode.number y)) st).1 = Outcome.ret a := by rw [h]
    obtain ⟨p, hb⟩ := binarySwitch_fst op_ x y st
    rw [visit_binary_numbers, hb] at h1
    cases h1
    obtain ⟨hnone, hsome⟩ := visit_value_log h
    cases p with
    | none => exact ⟨fun _ => hnone rfl, fun hf => by simp [AnyResult.isFailure] at hf⟩
    | some v =>
      exact ⟨fun hf => by simp [AnyResult.isFailure] at hf, fun _ => hsome (by simp)⟩
  | callExpr callee_ args_ =>
    cases a with
    | value p =>
      obtain ⟨hnone, hsome⟩ := visit_value_log h
      cases p with
      | none => exact ⟨fun _ => hnone rfl, fun hf => by simp [AnyResult.isFailure] at hf⟩
      | some v =>
        exact ⟨fun hf => by simp [AnyResult.isFailure] at hf, fun _ => hsome (by simp)⟩
    | callInst p =>
      simp only [visit, visitCall] at h
      split at h
      · simp [returnLogErrorV] at h
      · split at h
        · simp at h
        · split at h
          · simp [returnLogErrorV] at h
          · simp only [CodeGenerator.emit, Prod.mk.injEq, Outcome.ret.injEq,
              AnyResult.callInst.injEq] at h
            obtain ⟨hp, hst⟩ := h
            subst hp hst
            exact ⟨fun hf => by simp [AnyResult.isFailure] at hf, fun _ => rfl⟩
    | constantFP p =>
      have h1 : (visit (ExprAstNode.callExpr callee_ args_) st).1
          = Outcome.ret (AnyResult.constantFP p) := by rw [h]
      obtain ⟨v, hv, _⟩ := visit_constantFP_number h1 (p := p) rfl
      cases hv
    | nullptr =>
      have h1 : (visitCall callee_ args_ st).1 = Outcome.ret AnyResult.nullptr := by
        simp only [visit] at h
        rw [h]
      rcases visitCall_fst callee_ args_ st with h2 | ⟨q, h2⟩ | ⟨h2, _⟩ <;>
        rw [h2] at h1 <;> cases h1
    | function p =>
      have h1 : (visitCall callee_ args_ st).1 = Outcome.ret (AnyResult.function p) := by
        simp only [visit] at h
        rw [h]
      rcases visitCall_fst callee_ args_ st with h2 | ⟨q, h2⟩ | ⟨h2, _⟩ <;>
        rw [h2] at h1 <;> cases h1
  | prototype node =>
    simp only [visit, visitPrototype, Prod.mk.injEq, Outcome.ret.injEq] at h
    obtain ⟨ha, hst⟩ := h
    subst ha hst
    exact ⟨fun hf => by simp [AnyResult.isFailure] at hf, fun _ => rfl⟩
  | function proto_ body_ => exact visit_function_log h

/-- C16, witness: on a fresh generator the reference to the unbound `a`
returns a failure and logs exactly one diagnostic, and the definition
`id(x) = x` succeeds and logs none. -/
theorem c16_one_diagnostic_per_failure_witness :
    (visit (ExprAstNode.variableExpr "a") CodeGenerator.init
        = (Outcome.ret (AnyResult.value none),
            (visit (ExprAstNode.variableExpr "a") CodeGenerator.init).2) ∧
      ∃ msg, (visit (ExprAstNode.variableExpr "a") CodeGenerator.init).2.log
        = CodeGenerator.init.log ++ [msg]) ∧
    (visit idDef CodeGenerator.init
        = (Outcome.ret (AnyResult.function (some "id")), (visit idDef CodeGenerator.init).2) ∧
      (visit idDef CodeGenerator.init).2.log = CodeGenerator.init.log) :=
  ⟨⟨by decide,
    (c16_one_diagnostic_per_failure (ExprAstNode.variableExpr "a") CodeGenerator.init
      (visit (ExprAstNode.variableExpr "a") CodeGenerator.init).2 (AnyResult.value none)
      (by decide)).1 (by decide)⟩,
   ⟨by decide,
    (c16_one_diagnostic_per_failure idDef CodeGenerator.init
      (visit idDef CodeGenerator.init).2 (AnyResult.function (some "id"))
      (by decide)).2 (by decide)⟩⟩

/-- C17, counterexample: on a fresh generator the reference to the unbound
`a` turns the empty symbol table into one that holds the key `a`, mapped to a
null pointer. -/
theorem c17_failed_lookup_counterexample :
    (visit (ExprAstNode.variableExpr "a") CodeGenerator.init).1
      = Outcome.ret (AnyResult.value none) ∧
    (visit (ExprAstNode.variableExpr "a") CodeGenerator.init).2.nameValues_ = [("a", none)] ∧
    (visit (ExprAstNode.variableExpr "a") CodeGenerator.init).2.nameValues_
      ≠ CodeGenerator.init.nameValues_ ∧
    mapFind "a" (visit (ExprAstNode.variableExpr "a") CodeGenerator.init).2.nameValues_
      = some none := by
  refine ⟨by decide, by decide, by decide, by decide⟩

/-- C17, amended: a variable reference whose name has an entry (null or not)
leaves the symbol table exactly as it was; a reference whose name has no
entry adds one entry for that name, holding a null pointer, and leaves every
other key as it was; and the table set up on entry to a definition maps every
key to a non-null value. -/
theorem c17_symbol_table_after_lookup (st : CodeGenerator) (name_ : String) :
    (∀ p, mapFind name_ st.nameValues_ = some p →
      (visit (ExprAstNode.variableExpr name_) st).2.nameValues_ = st.nameValues_) ∧
    (mapFind name_ st.nameValues_ = none →
      (visit (ExprAstNode.variableExpr name_) st).2.nameValues_
        = st.nameValues_ ++ [(name_, none)] ∧
      mapFind name_ (visit (ExprAstNode.variableExpr name_) st).2.nameValues_ = some none ∧
      ∀ k, k ≠ name_ →
        mapFind k (visit (ExprAstNode.variableExpr name_) st).2.nameValues_
          = mapFind k st.nameValues_) ∧
    (∀ (f : Function) (k : String) (p : Option Value),
      mapFind k (functionEnter f st).nameValues_ = some p → p ≠ none) := by
  refine ⟨?_, ?_, ?_⟩
  · intro p h
    cases p with
    | none => simp [visit, visitVariable, mapIndex, h, returnLogErrorV, logErrorV]
    | some v => simp [visit, visitVariable, mapIndex, h]
  · intro h
    have hnv : (visit (ExprAstNode.variableExpr name_) st).2.nameValues_
        = st.nameValues_ ++ [(name_, none)] := by
      simp [visit, visitVariable, mapIndex, h, returnLogErrorV, logErrorV]
    refine ⟨hnv, ?_, ?_⟩
    · rw [hnv, mapFind_append_singleton, h]
      simp
    · intro k hk
      have hne : ¬ name_ = k := fun e => hk e.symm
      rw [hnv, mapFind_append_singleton]
      cases mapFind k st.nameValues_ with
      | none => simp [hne]
      | some p => rfl
  · intro f k p h
    exact mapFind_bindArgs_ne_null f.name f.args 0 [] (fun k p h => by simp [mapFind] at h) k p h

/-- C17, witness: in `declaredF1`, where `x` is bound, a reference to `x`
leaves the table as it was and a reference to the unbound `a` adds the null
entry for `a`. -/
theorem c17_symbol_table_after_lookup_witness :
    (mapFind "x" declaredF1.nameValues_ = some (some (Value.argument "id" 0)) ∧
      (visit (ExprAstNode.variableExpr "x") declaredF1).2.nameValues_
        = declaredF1.nameValues_) ∧
    (mapFind "a" declaredF1.nameValues_ = none ∧
      (visit (ExprAstNode.variableExpr "a") declaredF1).2.nameValues_
        = declaredF1.nameValues_ ++ [("a", none)]) :=
  ⟨⟨by decide,
    (c17_symbol_table_after_lookup declaredF1 "x").1 (some (Value.argument "id" 0))
      (by decide)⟩,
   ⟨by decide, ((c17_symbol_table_after_lookup declaredF1 "a").2.1 (by decide)).1⟩⟩

/-- C18: an operand that is not a literal never reaches the operator. In the
generator `declaredF1` the variable `x` generates to the parameter of `id`,
yet `x + 1.0`, `x - 1.0`, `x * 1.0` and `x < 1.0` all end in
`std::bad_any_cast` with nothing emitted: no float-add, subtract, multiply
or compare of that value is returned. -/
theorem c18_variable_operand_raises :
    (visit (ExprAstNode.variableExpr "x") declaredF1).1
      = Outcome.ret (AnyResult.value (some (Value.argument "id" 0))) ∧
    visit (ExprAstNode.binaryExpr '+' (ExprAstNode.variableExpr "x") (ExprAstNode.number one))
        declaredF1 = (Outcome.badAnyCast, declaredF1) ∧
    visit (ExprAstNode.binaryExpr '-' (ExprAstNode.variableExpr "x") (ExprAstNode.number one))
        declaredF1 = (Outcome.badAnyCast, declaredF1) ∧
    visit (ExprAstNode.binaryExpr '*' (ExprAstNode.variableExpr "x") (ExprAstNode.number one))
        declaredF1 = (Outcome.badAnyCast, declaredF1) ∧
    visit (ExprAstNode.binaryExpr '<' (ExprAstNode.variableExpr "x") (ExprAstNode.number one))
        declaredF1 = (Outcome.badAnyCast, declaredF1) := by
  refine ⟨by decide, by decide, by decide, by decide, by decide⟩

/-- C20, counterexample: on a generator whose module declares `f(a)` without
a body, the definition `f(x) = x` fails: `x` is looked up among the display
names of the declaration, is reported unknown, and the declaration is erased;
on a fresh generator the same definition succeeds. -/
theorem c20_display_names_counterexample :
    declaredFa.module_.getFunction "f" = some { name := "f", args := ["a"], blocks := [] } ∧
    visit fxDef declaredFa
      = (Outcome.ret AnyResult.nullptr,
          { module_ := { functions := [] },
            insertPoint := some ("f", 0),
            nameValues_ := [("a", some (Value.argument "f" 0)), ("x", none)],
            emitted := [],
            log := ["Unknown variable name."] }) ∧
    (visit fxDef CodeGenerator.init).1 = Outcome.ret (AnyResult.function (some "f")) := by
  refine ⟨by decide, by decide, by decide⟩

/-- C20, amended: variables are looked up under the display names of the IR
parameters. When the module declares `f` without a body, generating a
definition of `f` whose body is the variable `v`, whatever parameter names
its prototype lists: if the declaration's display names are distinct and `v`
is the j-th of them, the visit succeeds and `f` gets a single entry block
that returns its j-th parameter; if `v` is none of the declaration's display
names, the visit fails with the diagnostic "Unknown variable name." and the
declaration is erased. -/
theorem c20_lookup_by_display_names (st : CodeGenerator) (f : String) (ps : List String)
    (decl : Function) (hdecl : st.module_.getFunction f = some decl)
    (hempty : decl.blocks = []) :
    (∀ (j : Nat) (hj : j < decl.args.length), decl.args.Nodup →
      (visit (ExprAstNode.function (some { name_ := f, args_ := ps })
          (ExprAstNode.variableExpr (decl.args.get ⟨j, hj⟩))) st).1
        = Outcome.ret (AnyResult.function (some f)) ∧
      (visit (ExprAstNode.function (some { name_ := f, args_ := ps })
          (ExprAstNode.variableExpr (decl.args.get ⟨j, hj⟩))) st).2.module_.getFunction f
        = some { name := f, args := decl.args,
                 blocks := [{ name := "entry",
                              insts := [Instruction.mk st.emitted.length Opcode.ret
                                [Value.argument f j] ""] }] }) ∧
    (∀ v : String, v ∉ decl.args →
      (visit (ExprAstNode.function (some { name_ := f, args_ := ps })
          (ExprAstNode.variableExpr v)) st).1 = Outcome.ret AnyResult.nullptr ∧
      (visit (ExprAstNode.function (some { name_ := f, args_ := ps })
          (ExprAstNode.variableExpr v)) st).2.log = st.log ++ ["Unknown variable name."] ∧
      (visit (ExprAstNode.function (some { name_ := f, args_ := ps })
          (ExprAstNode.variableExpr v)) st).2.module_
        = (st.module_.createBlock f "entry").eraseFunction f) := by
  have hname : decl.name = f := getFunction_name hdecl
  have hdecl' : st.module_.getFunction
      ({ name_ := f, args_ := ps } : PrototypeAstNode).name_ = some decl := hdecl
  obtain ⟨dname, dargs, dblocks⟩ := decl
  simp only at hname hempty
  subst hname hempty
  constructor
  · intro j hj hnodup
    have hfind := mapFind_bindArgs dname dargs 0 [] j hj hnodup
    simp only [Nat.zero_add] at hfind
    rw [visit_function_declared _ hdecl' rfl]
    simp only [visit, visitVariable, mapIndex, functionEnter, hfind, functionFinish,
      anyCastValue, CodeGenerator.emit, Module.createBlock, List.length_nil, true_and]
    have hd : Module.getFunction { functions := st.module_.functions } dname
        = some { name := dname, args := dargs, blocks := [] } := hdecl
    refine (getFunction_updateFunction _ _ ?_ _).trans ?_
    · intro g
      rfl
    · rw [getFunction_updateFunction _ _ ?_ _, hd]
      · rfl
      · intro g
        rfl
  · intro v hv
    have hfind : mapFind v (bindArgs dname dargs 0 []) = none := by
      rw [mapFind_bindArgs_of_not_mem dname dargs 0 [] hv]
      rfl
    rw [visit_function_declared _ hdecl' rfl]
    simp [visit, visitVariable, mapIndex, functionEnter, hfind, returnLogErrorV, logErrorV,
      functionFinish, anyCastValue]

/-- C20, witness: with `f(a)` declared, the definition of `f` under the
prototype `f(x)` succeeds when its body is `a`, the declaration's display
name, and fails when its body is `x`, the prototype's parameter name. -/
theorem c20_lookup_by_display_names_witness :
    declaredFa.module_.getFunction "f" = some { name := "f", args := ["a"], blocks := [] } ∧
    ((visit (ExprAstNode.function (some { name_ := "f", args_ := ["x"] })
          (ExprAstNode.variableExpr "a")) declaredFa).1
        = Outcome.ret (AnyResult.function (some "f")) ∧
      (visit (ExprAstNode.function (some { name_ := "f", args_ := ["x"] })
          (ExprAstNode.variableExpr "a")) declaredFa).2.module_.getFunction "f"
        = some { name := "f", args := ["a"],
                 blocks := [{ name := "entry",
                              insts := [Instruction.mk 0 Opcode.ret
                                [Value.argument "f" 0] ""] }] }) ∧
    ((visit fxDef declaredFa).1 = Outcome.ret AnyResult.nullptr ∧
      (visit fxDef declaredFa).2.log = declaredFa.log ++ ["Unknown variable name."] ∧
      (visit fxDef declaredFa).2.module_
        = (declaredFa.module_.createBlock "f" "entry").eraseFunction "f") :=
  ⟨by decide,
   (c20_lookup_by_display_names declaredFa "f" ["x"]
      { name := "f", args := ["a"], blocks := [] } (by decide) rfl).1 0 (by decide)
      (by decide),
   (c20_lookup_by_display_names declaredFa "f" ["x"]
      { name := "f", args := ["a"], blocks := [] } (by decide) rfl).2 "x" (by decide)⟩

end Quiscript
